import Mathlib

/-!
# Verification of the `lidrs` photometric-file library against its specification

Shallow embedding of the `lidrs` Rust crate (photometric-web data model,
EULUMDAT and IES parsers/expanders, averaging operation) and proofs of the
specification claims about it.

Rust `f64` values are modelled as real numbers (`ℝ`); `usize`/`i32` as
`ℕ`/`ℤ` with the source's wrapping spelled out.  Fallible code returns
`Except`; Rust panics (`unwrap`, `todo!()`, out-of-range indexing on the
paths a claim exercises) are modelled by an `Option` wrapper where a claim
depends on them.
-/

namespace Lidrs

open Real

/-! ## `util::geom::angles` -/

/-- `degrees_to_radians` from `src/util/geom/angles.rs`. -/
noncomputable def degreesToRadians (degree : ℝ) : ℝ :=
  degree * (π / 180)

/-- `radians_to_degrees` from `src/util/geom/angles.rs`. -/
noncomputable def radiansToDegrees (radian : ℝ) : ℝ :=
  radian * (180 / π)

/-- `angle_difference` from `src/util/geom/angles.rs`:
`acos` of the dot product of the two unit direction vectors divided by the
product of their magnitudes. -/
noncomputable def angleDifference (angle1 angle2 : ℝ) : ℝ :=
  let dotProd := Real.cos angle1 * Real.cos angle2 + Real.sin angle1 * Real.sin angle2
  let mag := Real.sqrt (Real.cos angle1 ^ 2 + Real.sin angle1 ^ 2) *
    Real.sqrt (Real.cos angle2 ^ 2 + Real.sin angle2 ^ 2)
  Real.arccos (dotProd / mag)

/-! ## `photweb::plane` -/

/-- `PlaneOrientation` from `src/photweb/plane.rs`. -/
inductive PlaneOrientation where
  | Vertical
  | Horizontal
  deriving Repr, DecidableEq

/-- Modelled from the spec: `units.rs` is declared in `src/photweb/mod.rs` but
its source is absent; §3 of the spec records only "`units` (currently candela
only)", so the enumeration has the single `Candela` variant. -/
inductive IntensityUnits where
  | Candela
  deriving Repr, DecidableEq

/-- `Plane` from `src/photweb/plane.rs`: one angular slice of the
distribution.  `angle` and `width` are radians; `angles`/`intensities` are the
secondary-axis samples. -/
structure Plane where
  angle : ℝ := 0
  width : ℝ := 0
  orientation : PlaneOrientation := .Vertical
  angles : List ℝ := []
  intensities : List ℝ := []
  units : IntensityUnits := .Candela

instance : Inhabited Plane := ⟨{}⟩

/-- `Plane::new` (all default values). -/
def Plane.new : Plane := {}

/-- `Plane::n_samples`. -/
def Plane.nSamples (p : Plane) : ℕ := p.angles.length

/-- `Plane::set_angle_degrees`. -/
noncomputable def Plane.setAngleDegrees (p : Plane) (angDeg : ℝ) : Plane :=
  { p with angle := degreesToRadians angDeg }

/-- `Plane::set_angles_degrees`. -/
noncomputable def Plane.setAnglesDegrees (p : Plane) (angDeg : List ℝ) : Plane :=
  { p with angles := angDeg.map degreesToRadians }

/-- `Plane::angle_deg`. -/
noncomputable def Plane.angleDeg (p : Plane) : ℝ := radiansToDegrees p.angle

/-- `Plane::delta_angle` from `src/photweb/plane.rs`: the local integration
weight of sample `i`.  The source indexes `self.angles` directly (panicking
out of range); out-of-range reads are given default `0` here and every claim
stays within range. -/
noncomputable def Plane.deltaAngle (p : Plane) (i : ℕ) : ℝ :=
  if i = 0 then p.angles.getD 1 0 - p.angles.getD 0 0
  else if p.angles.length - 1 ≤ i then p.angles.getD i 0 - p.angles.getD (i - 1) 0
  else 0.5 * ((p.angles.getD i 0 - p.angles.getD (i - 1) 0)
      + (p.angles.getD (i + 1) 0 - p.angles.getD i 0))

/-- `Plane::integrate_intensity` from `src/photweb/plane.rs`: the width times
the sum over enumerated intensities of `intensity * sin(angle) * delta`. -/
noncomputable def Plane.integrateIntensity (p : Plane) : ℝ :=
  p.width * ((List.range p.intensities.length).map
    (fun i => p.intensities.getD i 0 * Real.sin (p.angles.getD i 0) * p.deltaAngle i)).sum

/-! ## `photweb::photweb` -/

/-- Modelled from the spec: the `PlaneWidth` enum is consumed by
`src/photweb/photweb.rs` (`use super::{Plane, PlaneWidth}`) but its defining
source file is absent from `src/`.  Spec §3/§4.3: the width is "either one
symmetric half-spacing or two asymmetric lower/upper half-spacings when
neighbor spacing differs"; the constructors match the two call sites
`PlaneWidth::Symmetric(..)` and `PlaneWidth::Asymmetric { lower, upper }`. -/
inductive PlaneWidth where
  | Symmetric (w : ℝ)
  | Asymmetric (lower upper : ℝ)

/-- Modelled from the spec: the scalar angular width a `PlaneWidth` carries
into `Plane::width` (the `f64` field that `integrate_intensity` multiplies
by).  A symmetric width is the shared spacing itself; an asymmetric one is
the sum of the two half-widths, so integration is not biased by uneven
sampling (spec §4.3). -/
def PlaneWidth.value : PlaneWidth → ℝ
  | .Symmetric w => w
  | .Asymmetric lower upper => lower + upper

/-- `PhotometricWeb` from `src/photweb/photweb.rs`. -/
structure PhotometricWeb where
  planes : List Plane := []

/-- `PhotometricWeb::new`. -/
def PhotometricWeb.new : PhotometricWeb := {}

/-- `PhotometricWeb::n_planes`. -/
def PhotometricWeb.nPlanes (w : PhotometricWeb) : ℕ := w.planes.length

/-- `PhotometricWeb::is_spherically_symmetric`: true iff exactly one plane. -/
def PhotometricWeb.isSphericallySymmetric (w : PhotometricWeb) : Bool :=
  w.planes.length == 1

/-- `PhotometricWeb::resolve_index`: wraps an `i32` index around the circle
with Rust's truncated `%` (`Int.tmod`), exactly as
`(iplane % count + count) % count`. -/
def PhotometricWeb.resolveIndex (w : PhotometricWeb) (iplane : ℤ) : Plane :=
  let count : ℤ := (w.nPlanes : ℤ)
  let idx := Int.tmod (Int.tmod iplane count + count) count
  w.planes.getD idx.toNat default

/-- `PhotometricWeb::get_adjacent_planes`. -/
def PhotometricWeb.getAdjacentPlanes (w : PhotometricWeb) (iplane : ℤ) : Plane × Plane :=
  (w.resolveIndex (iplane - 1), w.resolveIndex (iplane + 1))

open Classical in
/-- `PhotometricWeb::delta_angle` from `src/photweb/photweb.rs`: `2π` for a
spherically symmetric web, otherwise resolved from the two circularly
adjacent planes. -/
noncomputable def PhotometricWeb.deltaAngle (w : PhotometricWeb) (i : ℕ) : PlaneWidth :=
  if w.isSphericallySymmetric then .Symmetric (2 * π)
  else
    let currPlane := w.planes.getD i default
    let lp := w.resolveIndex ((i : ℤ) - 1)
    let up := w.resolveIndex ((i : ℤ) + 1)
    let lower := angleDifference currPlane.angle lp.angle
    let upper := angleDifference up.angle currPlane.angle
    if lower = upper then .Symmetric (0.5 * (lower + upper))
    else .Asymmetric (lower / 2) (upper / 2)

/-- One iteration of the `set_planes` loop:
`self.planes[iplane].set_width(self.delta_angle(iplane))`. -/
noncomputable def setPlanesStep (acc : PhotometricWeb) (iplane : ℕ) : PhotometricWeb :=
  let updated : Plane :=
    { acc.planes.getD iplane default with width := (acc.deltaAngle iplane).value }
  { acc with planes := acc.planes.set iplane updated }

/-- `PhotometricWeb::set_planes`: stores the planes then walks the indices,
assigning each plane the width `delta_angle` computes on the current state
(widths do not feed back into `delta_angle`).  The stored scalar is
`PlaneWidth.value` (see there). -/
noncomputable def PhotometricWeb.setPlanes (w : PhotometricWeb) (planes : List Plane) :
    PhotometricWeb :=
  let w1 : PhotometricWeb := { w with planes := planes }
  (List.range w1.nPlanes).foldl setPlanesStep w1

/-- `PhotometricWeb::total_intensity`. -/
noncomputable def PhotometricWeb.totalIntensity (w : PhotometricWeb) : ℝ :=
  (w.planes.map Plane.integrateIntensity).sum

/-! ## `ops` (cross-web averaging) -/

namespace Ops

/-- `ops::err::Error` from `src/ops/err.rs`. -/
inductive Error where
  | NoPlanes
  | InconsistentNumberOfPlanes (expect found idx : ℕ)
  | InconsistentIntensitiesInPlane (expect found : ℕ)
  | InconsistentPlaneAngles
  deriving Repr, DecidableEq

end Ops

open Classical in
/-- `average_photmetric_web_intensities` from `src/ops/mod.rs`.  The outer
`Option` models the Rust panics on this path: the `position(..).unwrap()`
when no adjacent plane counts differ, and the `planes()[0]` indexing when the
first web has no planes.  Everything else follows the source line by line. -/
noncomputable def averagePhotmetricWebIntensities (inputWebs : List PhotometricWeb) :
    Option (Except Ops.Error PhotometricWeb) :=
  let nPlanesVec : List ℕ := inputWebs.map PhotometricWeb.nPlanes
  if nPlanesVec.length = 0 then some (.error .NoPlanes)
  else if nPlanesVec.min? ≠ nPlanesVec.max? then
    -- `n_planes_vec.windows(2).position(|vals| vals[0] != vals[1]).unwrap()`
    match (List.range (nPlanesVec.length - 1)).find?
        (fun j => nPlanesVec.getD j 0 ≠ nPlanesVec.getD (j + 1) 0) with
    | none => none
    | some idx =>
        some (.error (.InconsistentNumberOfPlanes
          (nPlanesVec.getD 0 0) (nPlanesVec.getD (idx + 1) 0) (idx + 1)))
  else
    match inputWebs.head? with
    | none => none
    | some firstWeb =>
        let nPlanes := nPlanesVec.headD 0
        let planeAngles : List ℝ := firstWeb.planes.map Plane.angle
        match firstWeb.planes.head? with
        | none => none
        | some firstPlane =>
            let angles : List ℝ := firstPlane.angles
            if inputWebs.any (fun web => web.planes.any (fun pl => pl.angles ≠ angles)) then
              some (.error .InconsistentPlaneAngles)
            else
              let nSamples := inputWebs.length
              let planes : List Plane := (List.range nPlanes).map (fun iPlane =>
                let averageIntensities : List ℝ := (List.range angles.length).map (fun idx =>
                  (inputWebs.map
                    (fun web => ((web.planes.getD iPlane default).intensities.getD idx 0))).sum
                    / (nSamples : ℝ))
                { Plane.new with
                    angle := planeAngles.getD iPlane 0
                    angles := angles
                    intensities := averageIntensities })
              some (.ok (PhotometricWeb.new.setPlanes planes))

/-! ## `photweb::funcs` (shared mirroring primitives) -/

/-- `mirror_first_quadrant` from `src/photweb/funcs.rs`: appends a mirrored
copy of all but the last plane, a plane at `a` landing at
`(π/2 - a) + π/2`. -/
noncomputable def mirrorFirstQuadrant (planes : List Plane) : List Plane :=
  planes ++ (planes.reverse.drop 1).map
    (fun pl => { pl with angle := (π / 2 - pl.angle) + π / 2 })

/-- `mirror_first_hemisphere` from `src/photweb/funcs.rs`: appends a mirrored
copy of the interior planes (skipping the shared boundary plane and the first
plane), a plane at `a` landing at `(π - a) + π`. -/
noncomputable def mirrorFirstHemisphere (planes : List Plane) : List Plane :=
  let takePlanes := planes.length - 2
  planes ++ ((planes.reverse.drop 1).take takePlanes).map
    (fun pl => { pl with angle := (π - pl.angle) + π })

/-! ## `io::eulumdat` -/

/-- `EulumdatSymmetry` from `src/io/eulumdat/symmetry.rs`. -/
inductive EulumdatSymmetry where
  | NoSymmetry
  | AboutVerticalAxis
  | C0C180Plane
  | C90C270Plane
  | C0C180C90C270Plane
  deriving Repr, DecidableEq

/-- Rust's `slice::chunks(k)`: groups of `k`, last group possibly shorter.
`chunks(0)` panics in Rust and is given the empty list here (never reached by
a claim). -/
def listChunks {α : Type _} : ℕ → List α → List (List α)
  | 0, _ => []
  | _ + 1, [] => []
  | k + 1, a :: rest => (a :: rest.take k) :: listChunks (k + 1) (rest.drop k)
termination_by _ l => l.length
decreasing_by
  simp only [List.length_cons, List.length_drop]
  omega

/-- The fields of `EulumdatFile` (`src/io/eulumdat/eulumdat_file.rs`) that
`get_planes` and the `Mc1`/`Mc2` computations read; the remaining fields of
the Rust struct are descriptive strings and scalars that no claim touches. -/
structure EulumdatFile where
  symmetry : EulumdatSymmetry := .NoSymmetry
  nCplanes : ℕ := 0
  nLuminousIntensitiesPerCplane : ℕ := 0
  cAngles : List ℝ := []
  gAngles : List ℝ := []
  intensities : List ℝ := []

/-- `EulumdatFile::mc1`. -/
def EulumdatFile.mc1 (f : EulumdatFile) : ℕ :=
  match f.symmetry with
  | .NoSymmetry => 1
  | .AboutVerticalAxis => 1
  | .C0C180Plane => 1
  | .C90C270Plane => 3 * (f.nCplanes / 4) + 1
  | .C0C180C90C270Plane => 1

/-- `EulumdatFile::mc2`. -/
def EulumdatFile.mc2 (f : EulumdatFile) : ℕ :=
  match f.symmetry with
  | .NoSymmetry => f.nCplanes
  | .AboutVerticalAxis => 1
  | .C0C180Plane => f.nCplanes / 2 + 1
  | .C90C270Plane => f.mc1 + f.nCplanes / 2
  | .C0C180C90C270Plane => f.nCplanes / 4 + 1

/-- The plane list `get_planes` builds before the symmetry blocks run: the
intensities chunked per C-plane, zipped with the stored C-angles. -/
noncomputable def eulumdatBasePlanes (f : EulumdatFile) : List Plane :=
  ((listChunks f.nLuminousIntensitiesPerCplane f.intensities).zip f.cAngles).map
    (fun ic =>
      { Plane.new with
          angle := degreesToRadians ic.2
          angles := f.gAngles.map degreesToRadians
          intensities := ic.1
          units := .Candela
          orientation := .Vertical })

/-- `EulumdatFile::get_planes` from `src/io/eulumdat/eulumdat_file.rs`:
chunks the intensities per C-plane, zips with the stored C-angles, then runs
the three symmetry blocks exactly as the source sequences them
(`tmp_planes` starts as a copy of `planes`; each block appends to it and
copies it back). -/
noncomputable def EulumdatFile.getPlanes (f : EulumdatFile) : List Plane :=
  let planes0 : List Plane := eulumdatBasePlanes f
  -- `tmp_planes = planes.clone()`
  -- Fill 90..180 from the first quadrant for `C0-C180-C90-C270`.
  let planes1 : List Plane :=
    if f.symmetry = .C0C180C90C270Plane then
      planes0 ++ (planes0.reverse.drop 1).map
        (fun pl => { pl with angle := (π / 2 - pl.angle) + π / 2 })
    else planes0
  -- Fill the last 180 degrees from the first hemisphere for `C0-C180` (and
  -- after the first block for `C0-C180-C90-C270`).
  let planes2 : List Plane :=
    if f.symmetry = .C0C180Plane ∨ f.symmetry = .C0C180C90C270Plane then
      let takePlanes := planes1.length - 2
      planes1 ++ ((planes1.reverse.drop 1).take takePlanes).map
        (fun pl => { pl with angle := (π - pl.angle) + π })
    else planes1
  -- Build the three slices for `C90-C270`.
  if f.symmetry = .C90C270Plane then
    let half := planes2.length / 2
    (((planes2.drop 1).take half).reverse).map
        (fun pl => { pl with angle := π - pl.angle })
      ++ planes2
      ++ (((planes2.drop (half + 1)).take (half - 1)).reverse).map
        (fun pl => { pl with angle := pl.angle + 2 * (3 * (π / 2) - pl.angle) })
  else planes2

/-! ## `io::ies` -/

namespace Ies

/-- `ies::err::Error` from `src/io/ies/err.rs`.  The variants that wrap a
standard-library error value (`ParseFloatError`, `ParseIntError`,
`FromPrimitiveError`, `TileFileIOError`) keep only their positional payload
here, the wrapped error value being opaque to every claim. -/
inductive Error where
  | EmptyFile
  | TiltNotDefined
  | TiltFileNotFound (path : String)
  | TileFileIOError
  | TiltFiltTooLong (len : ℕ)
  | InvalidKeyword (iline : ℕ)
  | ParseFloatError (iline : ℕ) (iitem : Option ℕ)
  | ParseIntError (iline : ℕ) (iitem : Option ℕ)
  | InvalidUnit (iline : ℕ)
  | ArrayIncorrectLength (iline expected found : ℕ)
  | VerticalAnglesInvalid (iline : ℕ)
  | HorizontalAnglesInvalid (iline : ℕ)
  | UnexpectedEndOfFile (iline : ℕ)
  | UnexpectedIitem (iline expected actual : ℕ)
  | FromPrimitiveError (iline : ℕ)
  deriving Repr, DecidableEq

end Ies

/-- `IesStandard` from `src/io/ies/standard.rs`. -/
inductive IesStandard where
  | Iesna1986
  | Iesna1991
  | Iesna1995
  | Iesna2002
  deriving Repr, DecidableEq

/-- `impl From<&str> for IesStandard`: the header line of the file, defaulting
to the oldest standard when unrecognised. -/
def IesStandard.fromLine (str : String) : IesStandard :=
  if str = "IESNA91" then .Iesna1991
  else if str = "IESNA:LM-63-1995" then .Iesna1995
  else if str = "IESNA:LM-63-2002" then .Iesna2002
  else .Iesna1986

/-- `IesPhotometryType` from `src/io/ies/phot_type.rs`. -/
inductive IesPhotometryType where
  | TypeC
  | TypeB
  | TypeA
  deriving Repr, DecidableEq

instance : Inhabited IesPhotometryType := ⟨.TypeC⟩

/-- `TryFromPrimitive` for `IesPhotometryType` (`TypeC = 1`, `TypeB = 2`,
`TypeA = 3`; anything else is a conversion error). -/
def IesPhotometryType.fromNat : ℕ → Option IesPhotometryType
  | 1 => some .TypeC
  | 2 => some .TypeB
  | 3 => some .TypeA
  | _ => none

/-- `LuminousOpeningUnits` from `src/io/ies/ies_file.rs`. -/
inductive LuminousOpeningUnits where
  | Feet
  | Meters
  deriving Repr, DecidableEq

/-- `impl From<usize> for LuminousOpeningUnits` (default `Meters`). -/
def LuminousOpeningUnits.fromNat : ℕ → LuminousOpeningUnits
  | 1 => .Feet
  | 2 => .Meters
  | _ => .Meters

/-- One whitespace/comma-delimited token of the numeric section of an IES
file.  The source parses the same token string once as an integer and once as
a float depending on the slot it lands in; the two fields record those two
parse outcomes (`none` = the string does not parse). -/
structure NumTok where
  int? : Option ℕ := none
  float? : Option ℝ := none

/-- A number token whose string parses as the given whole number both ways. -/
noncomputable def numTok (n : ℕ) : NumTok := { int? := some n, float? := some (n : ℝ) }

/-- A number token whose string parses only as a float (e.g. `"-1"` or
`"0.5"` for the `usize` slots it is never read from in any claim). -/
def floatTok (x : ℝ) : NumTok := { int? := none, float? := some x }

/-- A structured line of an IES file, classified the way the parser's string
tests classify raw lines: `tiltLine arg` is a line `TILT=arg`
(`starts_with("TILT=")`), `kwLine name value` is a line `[NAME] value`
(matched by the keyword regex `\[([A-Z_]+)\] (.*)`), and `plainLine text
toks` is any other line, carrying its raw text (used only for standard
detection on line one) and its delimiter-split tokens. -/
inductive IesLine where
  | kwLine (name value : String)
  | tiltLine (arg : String)
  | plainLine (text : String) (toks : List NumTok)

instance : Inhabited IesLine := ⟨.plainLine "" []⟩

/-- The raw text of a structured line (what `lines()` yields in the source). -/
def IesLine.text : IesLine → String
  | .kwLine name value => "[" ++ name ++ "] " ++ value
  | .tiltLine arg => "TILT=" ++ arg
  | .plainLine t _ => t

/-- `line.starts_with("TILT=")`. -/
def IesLine.isTilt : IesLine → Bool
  | .tiltLine _ => true
  | _ => false

/-- `line.replace("TILT=", "")` as applied to the line found by the `TILT=`
search (the other constructors contain no `TILT=` substring to remove). -/
def IesLine.stripTilt : IesLine → String
  | .tiltLine arg => arg
  | l => l.text

/-- The delimiter-split tokens of a line, as consumed by
`parse_properties`.  Every line after the `TILT=` line is a plain data line
in each input a claim exercises, so only `plainLine` carries tokens. -/
def IesLine.toks : IesLine → List NumTok
  | .plainLine _ toks => toks
  | _ => []

/-- `HashMap::insert`: replace the value when the key is present. -/
def kwInsert (m : List (String × String)) (k v : String) : List (String × String) :=
  if m.any (fun p => p.1 = k) then m.map (fun p => if p.1 = k then (k, v) else p)
  else m ++ [(k, v)]

/-- `HashMap::get_mut` lookup. -/
def kwGet (m : List (String × String)) (k : String) : Option String :=
  (m.find? (fun p => p.1 = k)).map (fun p => p.2)

/-- `push_str(&format!(" {}", ..))` on the entry found by `get_mut`. -/
def kwAppend (m : List (String × String)) (k v : String) : List (String × String) :=
  m.map (fun p => if p.1 = k then (p.1, p.2 ++ " " ++ v) else p)

/-- The keyword-accumulation loop of `IesFile::parse_keywords`: a `[MORE]`
entry appends to the previously seen keyword's value.  `none` models the two
`unwrap` panics on that path: `previous_kw.as_ref().unwrap()` when no keyword
has been seen yet, and `self.keywords.get_mut(..).unwrap()` when the map has
no such entry. -/
def processKeywords : List (String × String) → Option String →
    List (String × String) → Option (List (String × String))
  | [], _, acc => some acc
  | (k, v) :: rest, prev, acc =>
      if k = "MORE" then
        match prev with
        | none => none
        | some pk =>
            match kwGet acc pk with
            | none => none
            | some _ => processKeywords rest prev (kwAppend acc pk v)
      else processKeywords rest (some k) (kwInsert acc k v)

/-- `IesFile::parse_keywords` from `src/io/ies/ies_file.rs`: classify the
lines between the standard tag and the `TILT=` line, reporting the first
invalid line as `InvalidKeyword` (with the source's `start + iline + 1`
line arithmetic over the already-absolute `enumerate` index), else fold the
keyword pairs. -/
def parseKeywordsIes (standard : IesStandard) (lines : List IesLine) :
    Option (Except Ies.Error (List (String × String))) :=
  let start := if standard = .Iesna1986 then 0 else 1
  match lines.findIdx? IesLine.isTilt with
  | none => some (.error .TiltNotDefined)
  | some endPos =>
      let results : List (Except Ies.Error (String × String)) :=
        ((lines.enum.drop start).take (endPos - start)).map
          (fun il =>
            match il.2 with
            | .kwLine name value => .ok (name, value)
            | _ => .error (.InvalidKeyword (start + il.1 + 1)))
      let errors := results.filterMap (fun r => match r with | .error e => some e | _ => none)
      let keywords := results.filterMap (fun r => match r with | .ok kv => some kv | _ => none)
      match errors.head? with
      | none =>
          match processKeywords keywords none [] with
          | none => none
          | some acc => some (.ok acc)
      | some err => some (.error err)

/-- `Tilt` from `src/io/ies/tilt.rs`. -/
structure Tilt where
  lampToLumminaireGeometry : ℕ := 0
  noTiltAngles : ℕ := 0
  angles : List ℝ := []
  multiplyingFactors : List ℝ := []

/-- `IesFile::parse_tilt` from `src/io/ies/ies_file.rs`: find the `TILT=`
line and dispatch on its argument.  `TILT=NONE` yields no sub-table.
Modelled from the spec for the two remaining arms, which no claim touches:
the `TILT=INCLUDE` intensity-modifier sub-table is out of the core's scope
(spec §1) and is modelled as parsing successfully to an (unread) sub-table,
and loading an external tilt file is file I/O, which the embedding has none
of, so it fails with the wrapped I/O error. -/
def parseTiltIes (lines : List IesLine) : Except Ies.Error (Option Tilt) :=
  match lines.findIdx? IesLine.isTilt with
  | none => .error .TiltNotDefined
  | some val =>
      let arg := (lines.getD val default).stripTilt
      if arg = "NONE" then .ok none
      else if arg = "INCLUDE" then .ok (some {})
      else .error .TileFileIOError

/-- `IesFile` from `src/io/ies/ies_file.rs` (the parse target; `f64` fields
as `ℝ`, `usize` fields as `ℕ`). -/
structure IesFile where
  standard : IesStandard := .Iesna1986
  keywords : List (String × String) := []
  tilt : Option Tilt := none
  nLamps : ℕ := 0
  lumensPerLamp : ℝ := 0
  candelaMultiplyingFactor : ℝ := 0
  nVerticalAngles : ℕ := 0
  nHorizontalAngles : ℕ := 0
  photometricType : IesPhotometryType := .TypeC
  luminousOpeningUnits : LuminousOpeningUnits := .Meters
  luminousOpeningWidth : ℝ := 0
  luminousOpeningLength : ℝ := 0
  luminousOpeningHeight : ℝ := 0
  ballastFactor : ℝ := 0
  inputWatts : ℝ := 0
  verticalAngles : List ℝ := []
  horizontalAngles : List ℝ := []
  candelaValues : List ℝ := []

/-- `IesFile::new`. -/
def IesFile.new : IesFile := {}

/-- An integer-slot arm of `parse_properties`: apply the setter on a parsed
`usize`, or report a `ParseIntError` at this line and item. -/
noncomputable def intArm (st : IesFile) (iitem iline : ℕ) (t : NumTok)
    (set : IesFile → ℕ → IesFile) : IesFile × Option Ies.Error :=
  match t.int? with
  | some v => (set st v, none)
  | none => (st, some (.ParseIntError iline (some (iitem + 1))))

/-- A float-slot arm of `parse_properties`: apply the setter on a parsed
`f64`, or report a `ParseFloatError` at this line and item. -/
noncomputable def floatArm (st : IesFile) (iitem iline : ℕ) (t : NumTok)
    (set : IesFile → ℝ → IesFile) : IesFile × Option Ies.Error :=
  match t.float? with
  | some v => (set st v, none)
  | none => (st, some (.ParseFloatError iline (some (iitem + 1))))

/-- One step of the positional token consumption of
`IesFile::parse_properties`: slot `iitem` of the flattened token stream
either updates the file state or contributes an error, with the array
boundaries read from the counts parsed earlier in the same pass.
`totalLen` is `lines.iter().count()`, reported by the (unreachable) final
match arm. -/
noncomputable def parsePropertiesStep (totalLen : ℕ) (st : IesFile)
    (iitem iline : ℕ) (tok : NumTok) : IesFile × Option Ies.Error :=
  let intArm := intArm st iitem iline tok
  let floatArm := floatArm st iitem iline tok
  if iitem = 0 then intArm (fun s v => { s with nLamps := v })
  else if iitem = 1 then floatArm (fun s v => { s with lumensPerLamp := v })
  else if iitem = 2 then floatArm (fun s v => { s with candelaMultiplyingFactor := v })
  else if iitem = 3 then intArm (fun s v => { s with nVerticalAngles := v })
  else if iitem = 4 then intArm (fun s v => { s with nHorizontalAngles := v })
  else if iitem = 5 then
    match tok.int? with
    | some v =>
        match IesPhotometryType.fromNat v with
        | some phottype => ({ st with photometricType := phottype }, none)
        | none => (st, some (.FromPrimitiveError iline))
    | none => (st, some (.ParseIntError iline (some (iitem + 1))))
  else if iitem = 6 then
    intArm (fun s v => { s with luminousOpeningUnits := LuminousOpeningUnits.fromNat v })
  else if iitem = 7 then floatArm (fun s v => { s with luminousOpeningWidth := v })
  else if iitem = 8 then floatArm (fun s v => { s with luminousOpeningLength := v })
  else if iitem = 9 then floatArm (fun s v => { s with luminousOpeningHeight := v })
  else if iitem = 10 then floatArm (fun s v => { s with ballastFactor := v })
  else if iitem = 11 then (st, none)
  else if iitem = 12 then floatArm (fun s v => { s with inputWatts := v })
  else if 12 < iitem ∧ iitem ≤ 12 + st.nVerticalAngles then
    floatArm (fun s v => { s with verticalAngles := s.verticalAngles ++ [v] })
  else if 12 + st.nVerticalAngles < iitem ∧
      iitem ≤ 12 + st.nVerticalAngles + st.nHorizontalAngles then
    floatArm (fun s v => { s with horizontalAngles := s.horizontalAngles ++ [v] })
  else if 12 + st.nVerticalAngles + st.nHorizontalAngles ≤ iitem then
    floatArm (fun s v => { s with candelaValues := s.candelaValues ++ [v] })
  else
    (st, some (.UnexpectedIitem iline
      (12 + st.nVerticalAngles + st.nHorizontalAngles) totalLen))

/-- The error-collecting accumulation of `parse_properties`: run the step for
one enumerated token and append its error, if any, to the list. -/
noncomputable def parsePropertiesFold (totalLen : ℕ) (acc : IesFile × List Ies.Error)
    (it : ℕ × (ℕ × NumTok)) : IesFile × List Ies.Error :=
  let r := parsePropertiesStep totalLen acc.1 it.1 it.2.1 it.2.2
  (r.1, acc.2 ++ r.2.toList)

/-- `IesFile::parse_properties` from `src/io/ies/ies_file.rs`: skip past the
`TILT=` section (five lines for an inline sub-table, one otherwise), flatten
the remaining lines into one `(line number, token)` stream, consume the
tokens by position while collecting errors, and return the first error if
any occurred. -/
noncomputable def parsePropertiesIes (lines : List IesLine) (st0 : IesFile) :
    Except Ies.Error IesFile :=
  match lines.findIdx? IesLine.isTilt with
  | none => .error .TiltNotDefined
  | some tiltEnd =>
      let tiltSkip := if (lines.getD tiltEnd default).stripTilt = "INCLUDE" then 5 else 1
      let startLine := tiltEnd + tiltSkip
      let flat : List (ℕ × NumTok) :=
        (((lines.drop startLine).enum).map
          (fun il => il.2.toks.map (fun t => (startLine + il.1 + 1, t)))).flatten
      let result := flat.enum.foldl (parsePropertiesFold flat.length) (st0, [])
      match result.2.head? with
      | some e => .error e
      | none => .ok result.1

/-- `IesFile::parse` from `src/io/ies/ies_file.rs`: detect the standard from
the first line, then run the keyword, tilt and properties stages in order,
returning the first error.  The outer `Option` models panics inside
`parse_keywords` (see `processKeywords`). -/
noncomputable def IesFile.parse (lines : List IesLine) :
    Option (Except Ies.Error IesFile) :=
  match lines.head? with
  | none => some (.error .EmptyFile)
  | some l0 =>
      let standard := IesStandard.fromLine l0.text
      let st0 : IesFile := { IesFile.new with standard := standard }
      match parseKeywordsIes standard lines with
      | none => none
      | some (.error e) => some (.error e)
      | some (.ok kws) =>
          let st1 := { st0 with keywords := kws }
          match parseTiltIes lines with
          | .error e => some (.error e)
          | .ok tilt =>
              let st2 := { st1 with tilt := tilt }
              match parsePropertiesIes lines st2 with
              | .error e => some (.error e)
              | .ok st3 => some (.ok st3)

/-- `f64::EPSILON` = 2⁻⁵², the tolerance of the Type-C symmetry triggers. -/
noncomputable def f64Epsilon : ℝ := 1 / 2 ^ 52

/-- `IesFile::get_planes_type_c` from `src/io/ies/ies_file.rs`: chunk the
candela values per horizontal angle, then mirror the first quadrant when the
last plane's angle is within `f64::EPSILON` of `π/2`, and the first
hemisphere when the (possibly new) last plane's angle is within
`f64::EPSILON` of `π`.  `none` models the `.last().unwrap()` panic on an
empty plane list; the source's `horizontal_angles[iplane]` indexing panic is
out of range only off every claim's inputs and reads default `0` here. -/
noncomputable def IesFile.getPlanesTypeC (f : IesFile) : Option (List Plane) :=
  let planes : List Plane :=
    ((listChunks f.nVerticalAngles f.candelaValues).enum).map
      (fun ic =>
        { Plane.new with
            angle := degreesToRadians (f.horizontalAngles.getD ic.1 0)
            orientation := .Vertical
            intensities := ic.2
            angles := f.verticalAngles.map degreesToRadians
            units := .Candela })
  match planes.getLast? with
  | none => none
  | some lastPl =>
      let planes1 := if |lastPl.angle - π / 2| ≤ f64Epsilon then mirrorFirstQuadrant planes
        else planes
      match planes1.getLast? with
      | none => none
      | some lastPl1 =>
          some (if |lastPl1.angle - π| ≤ f64Epsilon then mirrorFirstHemisphere planes1
            else planes1)

/-- `IesFile::get_planes`: dispatch on the photometric type.  The Type A and
Type B arms are `todo!()` in the source — an unconditional panic, modelled as
`none`. -/
noncomputable def IesFile.getPlanes (f : IesFile) : Option (List Plane) :=
  match f.photometricType with
  | .TypeA => none
  | .TypeB => none
  | .TypeC => f.getPlanesTypeC

/-- `impl From<IesFile> for PhotometricWeb`: build a web from the extracted
planes (propagating the `get_planes` panic). -/
noncomputable def IesFile.intoPhotometricWeb (f : IesFile) : Option PhotometricWeb :=
  f.getPlanes.map (fun ps => PhotometricWeb.new.setPlanes ps)

/-! ## Spec-side definitions

Definitions written from the specification's wording, to be compared with
the embedded source functions. -/

/-- The spec's per-sample weight (§4.3): "`local_delta` for an interior
sample is the average of the two adjacent gaps and for an edge sample is the
single adjacent gap". -/
noncomputable def specLocalDelta (p : Plane) (i : ℕ) : ℝ :=
  if i = 0 then p.angles.getD 1 0 - p.angles.getD 0 0
  else if i = p.angles.length - 1 then p.angles.getD i 0 - p.angles.getD (i - 1) 0
  else 0.5 * ((p.angles.getD i 0 - p.angles.getD (i - 1) 0)
      + (p.angles.getD (i + 1) 0 - p.angles.getD i 0))

/-- The spec's per-plane integral (§4.3): the plane's width times the "sum
over consecutive secondary-angle samples of `intensity * sin(angle) *
local_delta`". -/
noncomputable def specPlaneIntegral (p : Plane) : ℝ :=
  p.width * ((List.range p.nSamples).map
    (fun i => p.intensities.getD i 0 * Real.sin (p.angles.getD i 0) * specLocalDelta p i)).sum

/-- The update `set_planes` performs on plane `i` of a freshly stored plane
list `ps`: overwrite the width with the value `delta_angle` computes. -/
noncomputable def widthUpdated (ps : List Plane) (i : ℕ) (p : Plane) : Plane :=
  { p with width := ((⟨ps⟩ : PhotometricWeb).deltaAngle i).value }

/-- The source's `lower` spacing in `PhotometricWeb::delta_angle`: the
angular distance from plane `i` to its lower circular neighbour. -/
noncomputable def lowerSpacing (w : PhotometricWeb) (i : ℕ) : ℝ :=
  angleDifference (w.planes.getD i default).angle (w.resolveIndex ((i : ℤ) - 1)).angle

/-- The source's `upper` spacing in `PhotometricWeb::delta_angle`: the
angular distance from the upper circular neighbour to plane `i`. -/
noncomputable def upperSpacing (w : PhotometricWeb) (i : ℕ) : ℝ :=
  angleDifference (w.resolveIndex ((i : ℤ) + 1)).angle (w.planes.getD i default).angle

/-- The web the spec (§4.5) promises from a successful averaging of
`w0 :: rest` whose shared first plane is `p0`: the first web's primary
angles, the shared secondary angles, and the per-sample arithmetic mean of
the input webs' intensities. -/
noncomputable def specAveragedWeb (w0 : PhotometricWeb) (rest : List PhotometricWeb)
    (p0 : Plane) : PhotometricWeb :=
  PhotometricWeb.new.setPlanes ((List.range w0.nPlanes).map (fun i =>
    { Plane.new with
        angle := (w0.planes.map Plane.angle).getD i 0
        angles := p0.angles
        intensities := (List.range p0.angles.length).map (fun j =>
          ((w0 :: rest).map
            (fun w => (w.planes.getD i default).intensities.getD j 0)).sum
            / (((w0 :: rest).length : ℕ) : ℝ)) }))

/-! ## Concrete claim inputs -/

/-- A numeric token whose string parses both as the natural `n` and as the
float `x` (e.g. `"1"`). -/
def tok (n : ℕ) (x : ℝ) : NumTok := { int? := some n, float? := some x }

/-- A syntactically well-formed IES input whose first keyword line is a
`[MORE]` entry with no previously seen keyword. -/
def iesMoreFirstLines : List IesLine :=
  [.plainLine "IESNA91" [],
    .kwLine "MORE" "continuation with no previous keyword",
    .tiltLine "NONE"]

/-- An IES input that declares `n_horizontal_angles = 2` but whose
horizontal-angle line (line 6) supplies only one value; the candela line
supplies two values. -/
def iesShortHorizontalLines : List IesLine :=
  [.plainLine "IESNA91" [],
    .tiltLine "NONE",
    .plainLine "1 -1 1 1 2 1 2 0 0 0"
      [tok 1 1, floatTok (-1), tok 1 1, tok 1 1, tok 2 2, tok 1 1, tok 2 2,
        tok 0 0, tok 0 0, tok 0 0],
    .plainLine "1 1 0" [tok 1 1, tok 1 1, tok 0 0],
    .plainLine "0" [tok 0 0],
    .plainLine "0" [tok 0 0],
    .plainLine "5 7" [tok 5 5, tok 7 7]]

/-- The file state `parse` produces for `iesShortHorizontalLines`: no error;
the first candela token (`5`) has been absorbed into the horizontal-angle
array and only `7` remains as candela data. -/
def iesShortHorizontalParsed : IesFile :=
  { standard := .Iesna1991
    keywords := []
    tilt := none
    nLamps := 1
    lumensPerLamp := -1
    candelaMultiplyingFactor := 1
    nVerticalAngles := 1
    nHorizontalAngles := 2
    photometricType := .TypeC
    luminousOpeningUnits := .Meters
    luminousOpeningWidth := 0
    luminousOpeningLength := 0
    luminousOpeningHeight := 0
    ballastFactor := 1
    inputWatts := 0
    verticalAngles := [0]
    horizontalAngles := [0, 5]
    candelaValues := [7] }

/-- A Type-C IES file state with one vertical angle and two stored
horizontal angles `0` and `x`, carrying candela values `a` and `b`. -/
def iesTwoPlaneTypeC (x a b : ℝ) : IesFile :=
  { IesFile.new with
      nVerticalAngles := 1
      nHorizontalAngles := 2
      verticalAngles := [0]
      horizontalAngles := [0, x]
      candelaValues := [a, b] }

/-- A horizontal angle strictly between 90° and 180° whose radian image lies
within `f64::EPSILON` of `π/2`: `90 + 180/(π·2⁵³)` degrees. -/
noncomputable def nearNinetyDegrees : ℝ := 90 + 180 / (π * 2 ^ 53)

/-- The plane `get_planes_type_c` builds for horizontal angle `h` and
candela chunk `[v]` when the single vertical angle is `0`. -/
noncomputable def twoPlaneAt (h v : ℝ) : Plane :=
  { Plane.new with
      angle := degreesToRadians h
      orientation := .Vertical
      intensities := [v]
      angles := [degreesToRadians 0]
      units := .Candela }

/-- The stored (unexpanded) planes of `iesTwoPlaneTypeC x a b`. -/
noncomputable def twoPlaneList (x a b : ℝ) : List Plane :=
  [twoPlaneAt 0 a, twoPlaneAt x b]

/-- The C3 input: a EULUMDAT document with symmetry `C0-C180` whose stored
planes lie at `0°,10°,…,180°` (one intensity sample per plane, equal to the
plane's own C-angle). -/
noncomputable def ldtC0C180 : EulumdatFile :=
  { symmetry := .C0C180Plane
    nCplanes := 36
    nLuminousIntensitiesPerCplane := 1
    cAngles := (List.range 19).map (fun i : ℕ => 10 * (i : ℝ))
    gAngles := [0]
    intensities := (List.range 19).map (fun i : ℕ => 10 * (i : ℝ)) }

/-- The C4 input: a EULUMDAT document with symmetry `C90-C270` whose stored
planes cover `90°..270°` in 10° steps (one intensity sample per plane, equal
to the plane's own C-angle). -/
noncomputable def ldtC90C270 : EulumdatFile :=
  { symmetry := .C90C270Plane
    nCplanes := 36
    nLuminousIntensitiesPerCplane := 1
    cAngles := (List.range 19).map (fun i : ℕ => 90 + 10 * (i : ℝ))
    gAngles := [0]
    intensities := (List.range 19).map (fun i : ℕ => 90 + 10 * (i : ℝ)) }

/-! ## Claim C1 -/

lemma deltaAngle_eq_specLocalDelta (p : Plane) (i : ℕ)
    (hn : 2 ≤ p.angles.length) (hi : i < p.angles.length) :
    p.deltaAngle i = specLocalDelta p i := by
  unfold Plane.deltaAngle specLocalDelta
  rcases eq_or_ne i 0 with h0 | h0
  · simp [h0]
  · rw [if_neg h0, if_neg h0]
    rcases eq_or_ne i (p.angles.length - 1) with hl | hl
    · rw [if_pos (le_of_eq hl.symm), if_pos hl]
    · have hlt : ¬(p.angles.length - 1 ≤ i) := by omega
      rw [if_neg hlt, if_neg hl]

/-- C1: for every plane with at least two samples (and the data-model
invariant that intensities and angles have the same length),
`Plane::integrate_intensity` is the plane's width times the sum over samples
of `intensity * sin(angle) * local_delta`, with `local_delta` the single
adjacent gap at the two edge samples and the average of the two adjacent
gaps at an interior sample; and `PhotometricWeb::total_intensity` is the sum
of `integrate_intensity` over the web's planes, `0.0` when the web has no
planes. -/
theorem integrate_intensity_matches_spec :
    (∀ p : Plane, 2 ≤ p.nSamples → p.intensities.length = p.angles.length →
      p.integrateIntensity = specPlaneIntegral p) ∧
    (∀ w : PhotometricWeb,
      w.totalIntensity = (w.planes.map Plane.integrateIntensity).sum) ∧
    (∀ w : PhotometricWeb, w.planes = [] → w.totalIntensity = 0) := by
  refine ⟨fun p h2 hlen => ?_, fun w => rfl, fun w hw => by simp [PhotometricWeb.totalIntensity, hw]⟩
  unfold Plane.integrateIntensity specPlaneIntegral
  rw [Plane.nSamples, ← hlen]
  congr 1
  refine congrArg List.sum (List.map_congr_left fun i hi => ?_)
  rw [List.mem_range] at hi
  rw [deltaAngle_eq_specLocalDelta p i (by rwa [← Plane.nSamples]) (by omega)]

/-- Witness for C1 at a concrete three-sample plane and a concrete web. -/
theorem integrate_intensity_matches_spec_witness :
    ({ width := 2, angles := [0, 1, 2], intensities := [3, 4, 5] } : Plane).integrateIntensity
      = specPlaneIntegral { width := 2, angles := [0, 1, 2], intensities := [3, 4, 5] } ∧
    (⟨[]⟩ : PhotometricWeb).totalIntensity = 0 :=
  ⟨integrate_intensity_matches_spec.1 _ (by simp [Plane.nSamples]) rfl,
    integrate_intensity_matches_spec.2.2 _ rfl⟩

/-! ## Claim C2: helper lemmas -/

lemma neg_lt_tmod (a : ℤ) (n : ℕ) (hn : 0 < n) : -(n : ℤ) < a.tmod n := by
  cases a with
  | ofNat m =>
      have h := Int.tmod_nonneg (a := Int.ofNat m) (n : ℤ) (Int.ofNat_nonneg m)
      omega
  | negSucc m =>
      show -(n : ℤ) < -(((m + 1) % n : ℕ) : ℤ)
      have := Nat.mod_lt (m + 1) hn
      omega

/-- The double-`tmod` wrap of `resolve_index` computes the mathematical
(Euclidean) remainder: negative indices resolve backward around the
circle. -/
lemma tmod_wrap_eq_emod (a : ℤ) (n : ℕ) (hn : 0 < n) :
    Int.tmod (Int.tmod a n + n) n = a % (n : ℤ) := by
  have hlb := neg_lt_tmod a n hn
  have hnn : (0 : ℤ) ≤ Int.tmod a n + n := by omega
  rw [Int.tmod_eq_emod hnn (by exact_mod_cast Nat.zero_le n)]
  have h1 : (Int.tmod a n + n) % (n : ℤ) = Int.tmod a n % n := by
    have := Int.add_mul_emod_self_left (Int.tmod a n) (n : ℤ) 1
    simp only [mul_one] at this
    exact this
  have h2 : Int.tmod a n % (n : ℤ) = a % n := by
    conv_rhs => rw [← Int.tmod_add_tdiv a n]
    rw [Int.add_mul_emod_self_left]
  rw [h1, h2]

lemma getD_angle_eq (l : List Plane) (j : ℕ) :
    (l.getD j default).angle = (l.map Plane.angle).getD j 0 := by
  rw [List.getD_eq_getElem?_getD, List.getD_eq_getElem?_getD, List.getElem?_map]
  cases h : l[j]?
  · show (default : Plane).angle = 0
    rfl
  · simp

lemma resolveIndex_angle (l : List Plane) (z : ℤ) :
    ((⟨l⟩ : PhotometricWeb).resolveIndex z).angle
      = (l.map Plane.angle).getD
          (Int.tmod (Int.tmod z l.length + l.length) l.length).toNat 0 := by
  unfold PhotometricWeb.resolveIndex PhotometricWeb.nPlanes
  exact getD_angle_eq l _

lemma deltaAngle_congr_angles {l1 l2 : List Plane}
    (h : l1.map Plane.angle = l2.map Plane.angle) (i : ℕ) :
    (⟨l1⟩ : PhotometricWeb).deltaAngle i = (⟨l2⟩ : PhotometricWeb).deltaAngle i := by
  have hlen : l1.length = l2.length := by
    simpa using congrArg List.length h
  have hcurr : ((l1.getD i default)).angle = ((l2.getD i default)).angle := by
    rw [getD_angle_eq, getD_angle_eq, h]
  have hlp : ((⟨l1⟩ : PhotometricWeb).resolveIndex ((i : ℤ) - 1)).angle
      = ((⟨l2⟩ : PhotometricWeb).resolveIndex ((i : ℤ) - 1)).angle := by
    rw [resolveIndex_angle, resolveIndex_angle, h, hlen]
  have hup : ((⟨l1⟩ : PhotometricWeb).resolveIndex ((i : ℤ) + 1)).angle
      = ((⟨l2⟩ : PhotometricWeb).resolveIndex ((i : ℤ) + 1)).angle := by
    rw [resolveIndex_angle, resolveIndex_angle, h, hlen]
  unfold PhotometricWeb.deltaAngle
  simp only [PhotometricWeb.isSphericallySymmetric, hlen]
  rw [show ((⟨l1⟩ : PhotometricWeb).planes.getD i default).angle
      = ((⟨l2⟩ : PhotometricWeb).planes.getD i default).angle from hcurr, hlp, hup]

lemma setPlanesStep_length (acc : PhotometricWeb) (k : ℕ) :
    (setPlanesStep acc k).planes.length = acc.planes.length := by
  unfold setPlanesStep
  exact List.length_set ..

lemma setPlanesStep_angles (acc : PhotometricWeb) (k : ℕ) :
    (setPlanesStep acc k).planes.map Plane.angle = acc.planes.map Plane.angle := by
  unfold setPlanesStep
  apply List.ext_getElem?
  intro j
  rw [List.getElem?_map, List.getElem?_map, List.getElem?_set]
  by_cases hkj : k = j
  · subst hkj
    by_cases hk : k < acc.planes.length
    · rw [if_pos rfl, if_pos hk, List.getElem?_eq_getElem hk]
      simp [List.getD_eq_getElem?_getD, List.getElem?_eq_getElem hk]
    · rw [if_pos rfl, if_neg hk, List.getElem?_eq_none (by omega)]
  · rw [if_neg hkj]

lemma foldl_setPlanesStep_length (ks : List ℕ) (acc : PhotometricWeb) :
    (ks.foldl setPlanesStep acc).planes.length = acc.planes.length := by
  induction ks generalizing acc with
  | nil => rfl
  | cons k ks ih => rw [List.foldl_cons, ih, setPlanesStep_length]

lemma foldl_setPlanesStep_getElem? (ps : List Plane) (ks : List ℕ)
    (acc : PhotometricWeb)
    (hang : acc.planes.map Plane.angle = ps.map Plane.angle)
    (hacc : ∀ j, acc.planes[j]? = ps[j]?
      ∨ acc.planes[j]? = (ps[j]?).map (widthUpdated ps j)) (j : ℕ) :
    (ks.foldl setPlanesStep acc).planes[j]? =
      if j ∈ ks then (ps[j]?).map (widthUpdated ps j) else acc.planes[j]? := by
  induction ks generalizing acc with
  | nil => simp
  | cons k ks ih =>
      have hlen : acc.planes.length = ps.length := by
        simpa using congrArg List.length hang
      have hdelta : acc.deltaAngle k = (⟨ps⟩ : PhotometricWeb).deltaAngle k :=
        @deltaAngle_congr_angles acc.planes ps hang k
      -- the element written at index `k` (when in range) is `widthUpdated ps k`
      -- of the original plane
      have hwrite : ∀ hk : k < acc.planes.length,
          ({ acc.planes.getD k default with width := (acc.deltaAngle k).value } : Plane)
            = widthUpdated ps k (ps.getD k default) := by
        intro hk
        have hk' : k < ps.length := by omega
        rcases hacc k with hcase | hcase
        · have : acc.planes.getD k default = ps.getD k default := by
            rw [List.getD_eq_getElem?_getD, List.getD_eq_getElem?_getD, hcase]
          rw [this, hdelta]
          rfl
        · have : acc.planes.getD k default
              = widthUpdated ps k (ps.getD k default) := by
            rw [List.getD_eq_getElem?_getD, List.getD_eq_getElem?_getD, hcase,
              List.getElem?_eq_getElem hk']
            rfl
          rw [this, hdelta]
          rfl
      have hang' : (setPlanesStep acc k).planes.map Plane.angle = ps.map Plane.angle := by
        rw [setPlanesStep_angles, hang]
      have hacc' : ∀ j, (setPlanesStep acc k).planes[j]? = ps[j]?
          ∨ (setPlanesStep acc k).planes[j]? = (ps[j]?).map (widthUpdated ps j) := by
        intro j
        unfold setPlanesStep
        rw [List.getElem?_set]
        by_cases hkj : k = j
        · subst hkj
          by_cases hk : k < acc.planes.length
          · right
            rw [if_pos rfl, if_pos hk, hwrite hk,
              List.getElem?_eq_getElem (by omega : k < ps.length)]
            simp [List.getD_eq_getElem?_getD, List.getElem?_eq_getElem
              (by omega : k < ps.length)]
          · left
            rw [if_pos rfl, if_neg hk, List.getElem?_eq_none (by omega)]
        · rw [if_neg hkj]
          exact hacc j
      rw [List.foldl_cons, ih (setPlanesStep acc k) hang' hacc']
      by_cases hmem : j ∈ ks
      · simp [hmem]
      · rw [if_neg hmem]
        unfold setPlanesStep
        rw [List.getElem?_set]
        by_cases hkj : k = j
        · subst hkj
          rw [if_pos rfl, if_pos (List.mem_cons_self k ks)]
          by_cases hk : k < acc.planes.length
          · rw [if_pos hk, hwrite hk,
              List.getElem?_eq_getElem (by omega : k < ps.length)]
            simp [List.getD_eq_getElem?_getD, List.getElem?_eq_getElem
              (by omega : k < ps.length)]
          · rw [if_neg hk, List.getElem?_eq_none (by omega : ps.length ≤ k)]
            rfl
        · have hnot : ¬ j ∈ k :: ks := by
            intro hj
            rcases List.mem_cons.mp hj with hj | hj
            · exact hkj hj.symm
            · exact hmem hj
          rw [if_neg hkj, if_neg hnot]

/-- What `set_planes` leaves at each index: the stored plane with only its
width replaced by the `delta_angle` value computed on the stored list. -/
lemma setPlanes_planes_getElem? (w : PhotometricWeb) (ps : List Plane) (j : ℕ) :
    (w.setPlanes ps).planes[j]? = (ps[j]?).map (widthUpdated ps j) := by
  unfold PhotometricWeb.setPlanes
  rw [foldl_setPlanesStep_getElem? ps _ _ rfl (fun j => Or.inl rfl) j]
  by_cases hj : j < ps.length
  · rw [if_pos (by simpa [PhotometricWeb.nPlanes] using hj)]
  · rw [if_neg (by simpa [PhotometricWeb.nPlanes] using hj),
      List.getElem?_eq_none (by omega : ps.length ≤ j)]
    rfl

lemma resolveIndex_eq_emod (w : PhotometricWeb) (z : ℤ) (h : 0 < w.nPlanes) :
    w.resolveIndex z = w.planes.getD (z % (w.nPlanes : ℤ)).toNat default := by
  simp only [PhotometricWeb.resolveIndex]
  rw [tmod_wrap_eq_emod z w.nPlanes h]

/-- C2: `set_planes` assigns each plane the width computed by `delta_angle`:
`2π` for a single-plane (spherically symmetric) web; otherwise the two
circular neighbours come from index arithmetic wrapping modulo the plane
count (negative indices resolving backward, so plane 0's lower neighbour is
the last plane and the last plane's upper neighbour is plane 0), and when the
two neighbour spacings agree the width is the single shared symmetric value,
while when they differ the plane carries the two separate half-widths
`lower/2` and `upper/2` rather than an average. -/
theorem set_planes_width_assignment :
    (∀ w : PhotometricWeb, w.isSphericallySymmetric = true ↔ w.nPlanes = 1) ∧
    (∀ (w : PhotometricWeb) (i : ℕ), w.nPlanes = 1 →
      w.deltaAngle i = PlaneWidth.Symmetric (2 * π)) ∧
    (∀ (w : PhotometricWeb) (z : ℤ), 0 < w.nPlanes →
      w.resolveIndex z = w.planes.getD (z % (w.nPlanes : ℤ)).toNat default) ∧
    (∀ w : PhotometricWeb, 2 ≤ w.nPlanes →
      w.getAdjacentPlanes 0
        = (w.planes.getD (w.nPlanes - 1) default, w.planes.getD 1 default) ∧
      w.getAdjacentPlanes ((w.nPlanes : ℤ) - 1)
        = (w.planes.getD (w.nPlanes - 2) default, w.planes.getD 0 default)) ∧
    (∀ (w : PhotometricWeb) (i : ℕ), w.nPlanes ≠ 1 →
      (lowerSpacing w i = upperSpacing w i →
        w.deltaAngle i = PlaneWidth.Symmetric (lowerSpacing w i)) ∧
      (lowerSpacing w i ≠ upperSpacing w i →
        w.deltaAngle i
          = PlaneWidth.Asymmetric (lowerSpacing w i / 2) (upperSpacing w i / 2))) ∧
    (∀ (w : PhotometricWeb) (ps : List Plane) (j : ℕ),
      (w.setPlanes ps).planes[j]? = (ps[j]?).map (widthUpdated ps j)) := by
  refine ⟨fun w => ?_, fun w i h => ?_, fun w z h => resolveIndex_eq_emod w z h,
    fun w h => ?_, fun w i h => ?_, fun w ps j => setPlanes_planes_getElem? w ps j⟩
  · simp [PhotometricWeb.isSphericallySymmetric, PhotometricWeb.nPlanes]
  · have hsym : w.isSphericallySymmetric = true := by
      simp [PhotometricWeb.isSphericallySymmetric, PhotometricWeb.nPlanes] at h ⊢
      exact h
    simp [PhotometricWeb.deltaAngle, hsym]
  · have hpos : 0 < w.nPlanes := by omega
    have hn : (2 : ℤ) ≤ (w.nPlanes : ℤ) := by exact_mod_cast h
    constructor
    · unfold PhotometricWeb.getAdjacentPlanes
      rw [resolveIndex_eq_emod w _ hpos, resolveIndex_eq_emod w _ hpos]
      have hm1 : (0 - 1 : ℤ) % (w.nPlanes : ℤ) = (w.nPlanes : ℤ) - 1 := by
        have he : (0 - 1 : ℤ) = ((w.nPlanes : ℤ) - 1) + (w.nPlanes : ℤ) * (-1) := by ring
        rw [he, Int.add_mul_emod_self_left, Int.emod_eq_of_lt (by omega) (by omega)]
      have hp1 : (0 + 1 : ℤ) % (w.nPlanes : ℤ) = 1 := by
        rw [Int.emod_eq_of_lt (by omega) (by omega)]
        omega
      rw [hm1, hp1]
      congr 2 <;> omega
    · unfold PhotometricWeb.getAdjacentPlanes
      rw [resolveIndex_eq_emod w _ hpos, resolveIndex_eq_emod w _ hpos]
      have hm1 : ((w.nPlanes : ℤ) - 1 - 1) % (w.nPlanes : ℤ) = (w.nPlanes : ℤ) - 2 := by
        rw [show ((w.nPlanes : ℤ) - 1 - 1) = (w.nPlanes : ℤ) - 2 by ring,
          Int.emod_eq_of_lt (by omega) (by omega)]
      have hp1 : ((w.nPlanes : ℤ) - 1 + 1) % (w.nPlanes : ℤ) = 0 := by
        rw [show ((w.nPlanes : ℤ) - 1 + 1) = (w.nPlanes : ℤ) by ring, Int.emod_self]
      rw [hm1, hp1]
      congr 2 <;> omega
  · have hsym : ¬ w.isSphericallySymmetric = true := by
      simp [PhotometricWeb.isSphericallySymmetric, PhotometricWeb.nPlanes] at h ⊢
      exact h
    unfold lowerSpacing upperSpacing
    simp only [PhotometricWeb.deltaAngle, if_neg hsym]
    constructor
    · intro heq
      rw [if_pos heq, ← heq]
      congr 1
      ring
    · intro hne
      rw [if_neg hne]

/-- Witness for C2 at a one-plane web and a two-plane web with planes at
angles `0` and `π`. -/
theorem set_planes_width_assignment_witness :
    (⟨[Plane.new]⟩ : PhotometricWeb).deltaAngle 0 = PlaneWidth.Symmetric (2 * π) ∧
    (⟨[Plane.new, { Plane.new with angle := π }]⟩ : PhotometricWeb).resolveIndex (-1)
      = { Plane.new with angle := π } ∧
    (⟨[Plane.new, { Plane.new with angle := π }]⟩ : PhotometricWeb).getAdjacentPlanes 0
      = ({ Plane.new with angle := π }, { Plane.new with angle := π }) ∧
    (⟨[Plane.new, { Plane.new with angle := π }]⟩ : PhotometricWeb).deltaAngle 0
      = PlaneWidth.Symmetric π ∧
    (PhotometricWeb.new.setPlanes [Plane.new]).planes[0]?
      = some { Plane.new with width := 2 * π } := by
  have hlow : lowerSpacing (⟨[Plane.new, { Plane.new with angle := π }]⟩ : PhotometricWeb) 0
      = π := by
    unfold lowerSpacing
    rw [set_planes_width_assignment.2.2.1 _ _ (by norm_num [PhotometricWeb.nPlanes])]
    norm_num [PhotometricWeb.nPlanes]
    simp [angleDifference, Plane.new]
  have hup : upperSpacing (⟨[Plane.new, { Plane.new with angle := π }]⟩ : PhotometricWeb) 0
      = π := by
    unfold upperSpacing
    rw [set_planes_width_assignment.2.2.1 _ _ (by norm_num [PhotometricWeb.nPlanes])]
    norm_num [PhotometricWeb.nPlanes]
    simp [angleDifference, Plane.new]
  refine ⟨?_, ?_, ?_, ?_, ?_⟩
  · exact set_planes_width_assignment.2.1 _ 0 rfl
  · rw [set_planes_width_assignment.2.2.1 _ (-1) (by norm_num [PhotometricWeb.nPlanes])]
    norm_num [PhotometricWeb.nPlanes]
  · rw [(set_planes_width_assignment.2.2.2.1 _
      (by norm_num [PhotometricWeb.nPlanes])).1]
    norm_num [PhotometricWeb.nPlanes]
  · rw [(set_planes_width_assignment.2.2.2.2.1 _ 0
      (by norm_num [PhotometricWeb.nPlanes])).1 (hlow.trans hup.symm), hlow]
  · rw [set_planes_width_assignment.2.2.2.2.2 PhotometricWeb.new [Plane.new] 0]
    simp [widthUpdated, PhotometricWeb.deltaAngle, PhotometricWeb.isSphericallySymmetric,
      PlaneWidth.value]

/-! ## Claims C5 and C6: helper lemmas -/

lemma min?_eq_max?_of_all_eq (l : List ℕ) (c : ℕ) (h : ∀ x ∈ l, x = c) :
    l.min? = l.max? := by
  cases hl : l with
  | nil => simp
  | cons a as =>
      have hmem : c ∈ l := by
        rw [hl]
        have := h a (by simp [hl])
        simp [hl, ← this]
      have hmin : l.min? = some c := by
        rw [List.min?_eq_some_iff (fun a => le_refl a) (fun a b => min_choice a b)
          (fun a b c => le_min_iff)]
        exact ⟨hmem, fun b hb => le_of_eq (h b hb).symm⟩
      have hmax : l.max? = some c := by
        rw [List.max?_eq_some_iff (fun a => le_refl a) (fun a b => max_choice a b)
          (fun a b c => max_le_iff)]
        exact ⟨hmem, fun b hb => le_of_eq (h b hb)⟩
      rw [← hl] at *
      rw [hmin, hmax]

lemma min?_ne_max?_of_mem_ne (l : List ℕ) (a b : ℕ) (ha : a ∈ l) (hb : b ∈ l)
    (hne : a ≠ b) : l.min? ≠ l.max? := by
  intro heq
  cases hmin : l.min? with
  | none =>
      rw [List.min?_eq_none_iff] at hmin
      subst hmin
      simp at ha
  | some m =>
      have hmax : l.max? = some m := by rw [← heq, hmin]
      have h1 := (List.min?_eq_some_iff (fun a => le_refl a) (fun a b => min_choice a b)
          (fun a b c => le_min_iff)).mp hmin
      have h2 := (List.max?_eq_some_iff (fun a => le_refl a) (fun a b => max_choice a b)
          (fun a b c => max_le_iff)).mp hmax
      have ha1 := h1.2 a ha
      have ha2 := h2.2 a ha
      have hb1 := h1.2 b hb
      have hb2 := h2.2 b hb
      omega

lemma find?_range'_first (p : ℕ → Bool) : ∀ (len s k : ℕ), s ≤ k → k < s + len →
    p k = true → (∀ j, s ≤ j → j < k → p j = false) →
    (List.range' s len).find? p = some k := by
  intro len
  induction len with
  | zero => intro s k h1 h2 _ _; omega
  | succ n ih =>
      intro s k h1 h2 hp hmin
      rw [List.range'_succ]
      by_cases hs : p s = true
      · have hks : k = s := by
          by_contra hne
          have hfalse := hmin s (le_refl s) (by omega)
          rw [hfalse] at hs
          exact absurd hs (by simp)
        rw [List.find?_cons_of_pos _ hs, hks]
      · rw [List.find?_cons_of_neg _ (by simpa using hs)]
        have hks : k ≠ s := fun h => hs (h ▸ hp)
        exact ih (s + 1) k (by omega) (by omega) hp (fun j hj1 hj2 => hmin j (by omega) hj2)

lemma find?_range_first (p : ℕ → Bool) (n k : ℕ) (hk : k < n) (hp : p k = true)
    (hmin : ∀ j < k, p j = false) : (List.range n).find? p = some k := by
  rw [List.range_eq_range']
  exact find?_range'_first p n 0 k (Nat.zero_le k) (by omega) hp (fun j _ hj => hmin j hj)

lemma getD_range_map {α : Type _} (f : ℕ → α) (n j : ℕ) (d : α) (hj : j < n) :
    ((List.range n).map f).getD j d = f j := by
  rw [List.getD_eq_getElem?_getD,
    List.getElem?_eq_getElem (by simpa using hj : j < ((List.range n).map f).length)]
  simp [List.getElem_map, List.getElem_range]

lemma setPlanes_length (w : PhotometricWeb) (ps : List Plane) :
    (w.setPlanes ps).planes.length = ps.length := by
  unfold PhotometricWeb.setPlanes
  exact foldl_setPlanesStep_length ..

/-- C6: the averaging operation validates in order — an empty input list
yields `NoPlanes`; webs whose plane counts are not all equal yield
`InconsistentNumberOfPlanes` naming the first web's count as expected, the
first differing count in list order, and that web's position; webs with
agreeing counts but some plane's secondary-angle array differing from the
first web's first plane yield the generic `InconsistentPlaneAngles` with no
positional payload. -/
theorem averaging_validation_errors :
    (averagePhotmetricWebIntensities [] = some (.error .NoPlanes)) ∧
    (∀ (webs : List PhotometricWeb) (k : ℕ),
      k < webs.length →
      (webs.map PhotometricWeb.nPlanes).getD k 0
        ≠ (webs.map PhotometricWeb.nPlanes).getD 0 0 →
      (∀ j < k, (webs.map PhotometricWeb.nPlanes).getD j 0
        = (webs.map PhotometricWeb.nPlanes).getD 0 0) →
      averagePhotmetricWebIntensities webs
        = some (.error (.InconsistentNumberOfPlanes
            ((webs.map PhotometricWeb.nPlanes).getD 0 0)
            ((webs.map PhotometricWeb.nPlanes).getD k 0) k))) ∧
    (∀ (w0 : PhotometricWeb) (rest : List PhotometricWeb) (p0 : Plane) (ptail : List Plane),
      w0.planes = p0 :: ptail →
      (∀ w ∈ w0 :: rest, w.nPlanes = w0.nPlanes) →
      (∃ w ∈ w0 :: rest, ∃ pl ∈ w.planes, pl.angles ≠ p0.angles) →
      averagePhotmetricWebIntensities (w0 :: rest)
        = some (.error .InconsistentPlaneAngles)) := by
  refine ⟨rfl, ?_, ?_⟩
  · intro webs k hk hne hfirst
    have hlen : (webs.map PhotometricWeb.nPlanes).length = webs.length := by simp
    have hk1 : 1 ≤ k := by
      rcases Nat.eq_zero_or_pos k with h | h
      · exact absurd (h ▸ rfl) (h ▸ hne)
      · omega
    have h0mem : (webs.map PhotometricWeb.nPlanes).getD 0 0
        ∈ webs.map PhotometricWeb.nPlanes := by
      rw [List.getD_eq_getElem?_getD, List.getElem?_eq_getElem (by omega)]
      exact List.getElem_mem _
    have hkmem : (webs.map PhotometricWeb.nPlanes).getD k 0
        ∈ webs.map PhotometricWeb.nPlanes := by
      rw [List.getD_eq_getElem?_getD, List.getElem?_eq_getElem (by omega)]
      exact List.getElem_mem _
    have hminmax := min?_ne_max?_of_mem_ne _ _ _ hkmem h0mem hne
    have hfind : (List.range ((webs.map PhotometricWeb.nPlanes).length - 1)).find?
        (fun j => decide ((webs.map PhotometricWeb.nPlanes).getD j 0
          ≠ (webs.map PhotometricWeb.nPlanes).getD (j + 1) 0)) = some (k - 1) := by
      apply find?_range_first _ _ _ (by omega)
      · have e1 := hfirst (k - 1) (by omega)
        have e2 : k - 1 + 1 = k := by omega
        simp only [e2, e1, decide_eq_true_eq]
        exact hne.symm
      · intro j hj
        have e1 := hfirst j (by omega)
        have e2 := hfirst (j + 1) (by omega)
        have e3 : (webs.map PhotometricWeb.nPlanes).getD j 0
            = (webs.map PhotometricWeb.nPlanes).getD (j + 1) 0 := e1.trans e2.symm
        simp only [e3, ne_eq, not_true_eq_false]
        exact decide_eq_false (fun h => h)
    unfold averagePhotmetricWebIntensities
    rw [if_neg (by omega), if_pos hminmax, hfind]
    have e2 : k - 1 + 1 = k := by omega
    show some (Except.error (Ops.Error.InconsistentNumberOfPlanes
        ((webs.map PhotometricWeb.nPlanes).getD 0 0)
        ((webs.map PhotometricWeb.nPlanes).getD ((k - 1) + 1) 0) ((k - 1) + 1))) = _
    rw [e2]
  · rintro w0 rest p0 ptail hp0 hcount ⟨w, hw, pl, hpl, hplne⟩
    have hall : ∀ x ∈ (w0 :: rest).map PhotometricWeb.nPlanes, x = w0.nPlanes := by
      intro x hx
      rcases List.mem_map.mp hx with ⟨w', hw', rfl⟩
      exact hcount w' hw'
    have hminmax := min?_eq_max?_of_all_eq _ _ hall
    have hanytrue : ((w0 :: rest).any fun web =>
        web.planes.any fun q => decide ¬(q.angles = p0.angles)) = true := by
      rw [List.any_eq_true]
      exact ⟨w, hw, by rw [List.any_eq_true]; exact ⟨pl, hpl, by simpa using hplne⟩⟩
    unfold averagePhotmetricWebIntensities
    rw [if_neg (by simp), if_neg (by simpa using hminmax)]
    simp only [List.head?_cons, hp0]
    rw [if_pos (by simpa using hanytrue)]

/-- C5: averaging a non-empty list of structurally identical webs succeeds
and produces a web with the first web's primary angles, the shared secondary
angles, and the sample-wise arithmetic mean of the intensities across the
input webs (see `specAveragedWeb`). -/
theorem averaging_success (w0 : PhotometricWeb) (rest : List PhotometricWeb)
    (p0 : Plane) (ptail : List Plane) (hp0 : w0.planes = p0 :: ptail)
    (hcount : ∀ w ∈ w0 :: rest, w.nPlanes = w0.nPlanes)
    (hang : ∀ w ∈ w0 :: rest, ∀ p ∈ w.planes, p.angles = p0.angles)
    (_hinv : ∀ w ∈ w0 :: rest, ∀ p ∈ w.planes, p.intensities.length = p.angles.length) :
    averagePhotmetricWebIntensities (w0 :: rest)
      = some (.ok (specAveragedWeb w0 rest p0)) ∧
    (specAveragedWeb w0 rest p0).nPlanes = w0.nPlanes := by
  constructor
  · have hall : ∀ x ∈ (w0 :: rest).map PhotometricWeb.nPlanes, x = w0.nPlanes := by
      intro x hx
      rcases List.mem_map.mp hx with ⟨w', hw', rfl⟩
      exact hcount w' hw'
    have hminmax := min?_eq_max?_of_all_eq _ _ hall
    have hanyfalse : ((w0 :: rest).any fun web =>
        web.planes.any fun q => decide ¬(q.angles = p0.angles)) = false := by
      rw [List.any_eq_false]
      intro w hw
      rw [Bool.not_eq_true, List.any_eq_false]
      intro q hq
      simpa using hang w hw q hq
    unfold averagePhotmetricWebIntensities specAveragedWeb
    rw [if_neg (by simp), if_neg (by simpa using hminmax)]
    simp only [List.head?_cons, hp0, List.map_cons, List.headD_cons]
    rw [if_neg (by simpa using hanyfalse)]
  · show (PhotometricWeb.new.setPlanes _).planes.length = _
    rw [setPlanes_length, List.length_map, List.length_range]

/-- Witness for C5: averaging two one-plane webs with per-sample intensities
`1` and `3` yields per-sample intensity `2`. -/
theorem averaging_success_witness :
    averagePhotmetricWebIntensities
        [⟨[{ Plane.new with angles := [0], intensities := [1] }]⟩,
          ⟨[{ Plane.new with angles := [0], intensities := [3] }]⟩]
      = some (.ok (specAveragedWeb ⟨[{ Plane.new with angles := [0], intensities := [1] }]⟩
          [⟨[{ Plane.new with angles := [0], intensities := [3] }]⟩]
          { Plane.new with angles := [0], intensities := [1] })) ∧
    ((specAveragedWeb ⟨[{ Plane.new with angles := [0], intensities := [1] }]⟩
        [⟨[{ Plane.new with angles := [0], intensities := [3] }]⟩]
        { Plane.new with angles := [0], intensities := [1] }).planes.getD 0
          default).intensities = [2] := by
  have h := averaging_success
    ⟨[{ Plane.new with angles := [0], intensities := [1] }]⟩
    [⟨[{ Plane.new with angles := [0], intensities := [3] }]⟩]
    { Plane.new with angles := [0], intensities := [1] } [] rfl
    (by intro w hw; fin_cases hw <;> rfl)
    (by intro w hw
        fin_cases hw <;>
          (intro p hp
           rw [List.mem_singleton] at hp
           subst hp
           rfl))
    (by intro w hw
        fin_cases hw <;>
          (intro p hp
           rw [List.mem_singleton] at hp
           subst hp
           rfl))
  refine ⟨h.1, ?_⟩
  rw [specAveragedWeb, List.getD_eq_getElem?_getD, setPlanes_planes_getElem?]
  simp only [PhotometricWeb.nPlanes]
  norm_num [List.range_succ, widthUpdated]

/-- Witness for C6: a two-web list with plane counts 0 and 1, and a two-web
list with equal counts but differing secondary-angle arrays. -/
theorem averaging_validation_errors_witness :
    (averagePhotmetricWebIntensities [⟨[]⟩, ⟨[Plane.new]⟩]
      = some (.error (.InconsistentNumberOfPlanes 0 1 1))) ∧
    (averagePhotmetricWebIntensities
        [⟨[{ Plane.new with angles := [0] }]⟩, ⟨[{ Plane.new with angles := [1] }]⟩]
      = some (.error .InconsistentPlaneAngles)) := by
  constructor
  · have h := averaging_validation_errors.2.1 [⟨[]⟩, ⟨[Plane.new]⟩] 1
      (by norm_num)
      (by simp [PhotometricWeb.nPlanes])
      (by intro j hj; have hj0 : j = 0 := by omega
          subst hj0; rfl)
    simpa [PhotometricWeb.nPlanes] using h
  · have h := averaging_validation_errors.2.2 ⟨[{ Plane.new with angles := [0] }]⟩
      [⟨[{ Plane.new with angles := [1] }]⟩] { Plane.new with angles := [0] } [] rfl
      (by intro w hw; fin_cases hw <;> rfl)
      ⟨⟨[{ Plane.new with angles := [1] }]⟩, by simp, { Plane.new with angles := [1] },
        by simp, by norm_num⟩
    exact h

/-! ## Claims C9 and C10 -/

/-- C9: for a Type A or Type B document, `IesFile::get_planes` hits the
`todo!()` arm and panics (modelled `none`) instead of returning planes or an
error, and therefore converting the document into a `PhotometricWeb`
panics as well; only Type C is implemented. -/
theorem type_a_b_get_planes_panics (f : IesFile)
    (h : f.photometricType = .TypeA ∨ f.photometricType = .TypeB) :
    f.getPlanes = none ∧ f.intoPhotometricWeb = none := by
  have hg : f.getPlanes = none := by
    unfold IesFile.getPlanes
    rcases h with h | h <;> rw [h]
  refine ⟨hg, ?_⟩
  unfold IesFile.intoPhotometricWeb
  rw [hg]
  rfl

/-- Witness for C9 at concrete Type A and Type B files. -/
theorem type_a_b_get_planes_panics_witness :
    (({ IesFile.new with photometricType := .TypeA } : IesFile).getPlanes = none ∧
      ({ IesFile.new with photometricType := .TypeA } : IesFile).intoPhotometricWeb = none) ∧
    (({ IesFile.new with photometricType := .TypeB } : IesFile).getPlanes = none ∧
      ({ IesFile.new with photometricType := .TypeB } : IesFile).intoPhotometricWeb = none) :=
  ⟨type_a_b_get_planes_panics _ (Or.inl rfl), type_a_b_get_planes_panics _ (Or.inr rfl)⟩

/-- C10: on a well-formed IES input whose first keyword line is a `[MORE]`
entry with no previously seen keyword, `IesFile::parse_keywords` panics on
`previous_kw.as_ref().unwrap()` (modelled `none`) instead of returning a
parse error, and hence `IesFile::parse` panics too. -/
theorem more_keyword_first_panics :
    parseKeywordsIes .Iesna1991 iesMoreFirstLines = none ∧
    IesFile.parse iesMoreFirstLines = none := by
  constructor
  · rfl
  · rfl

/-! ## Claim C7 -/

/-- C7 counterexample: the claim asserts that an IES input whose
horizontal-angle data supplies fewer values than the declared
`n_horizontal_angles` makes `IesFile::parse` return a length-mismatch error
citing the line, expected count and found count.  On
`iesShortHorizontalLines` (declared count 2, horizontal-angle line carrying
1 token) `parse` instead succeeds, silently absorbing the next candela token
into the horizontal-angle array. -/
theorem parse_short_horizontal_counterexample :
    IesFile.parse iesShortHorizontalLines = some (.ok iesShortHorizontalParsed) ∧
    iesShortHorizontalParsed.nHorizontalAngles = 2 ∧
    (iesShortHorizontalLines.getD 5 default).toks.length = 1 ∧
    iesShortHorizontalParsed.horizontalAngles = [0, 5] ∧
    iesShortHorizontalParsed.candelaValues = [7] :=
  ⟨rfl, rfl, rfl, rfl, rfl⟩

lemma intArm_no_length_mismatch (st : IesFile) (iitem iline : ℕ) (t : NumTok)
    (set : IesFile → ℕ → IesFile) (l e f' : ℕ) :
    (intArm st iitem iline t set).2 ≠ some (.ArrayIncorrectLength l e f') := by
  unfold intArm
  cases t.int? <;> simp

lemma floatArm_no_length_mismatch (st : IesFile) (iitem iline : ℕ) (t : NumTok)
    (set : IesFile → ℝ → IesFile) (l e f' : ℕ) :
    (floatArm st iitem iline t set).2 ≠ some (.ArrayIncorrectLength l e f') := by
  unfold floatArm
  cases t.float? <;> simp

lemma parsePropertiesStep_no_length_mismatch (totalLen : ℕ) (st : IesFile)
    (iitem iline : ℕ) (t : NumTok) (l e f' : ℕ) :
    (parsePropertiesStep totalLen st iitem iline t).2
      ≠ some (.ArrayIncorrectLength l e f') := by
  unfold parsePropertiesStep
  dsimp only []
  by_cases h0 : iitem = 0
  · rw [if_pos h0]; apply intArm_no_length_mismatch
  · rw [if_neg h0]
    by_cases h1 : iitem = 1
    · rw [if_pos h1]; apply floatArm_no_length_mismatch
    · rw [if_neg h1]
      by_cases h2 : iitem = 2
      · rw [if_pos h2]; apply floatArm_no_length_mismatch
      · rw [if_neg h2]
        by_cases h3 : iitem = 3
        · rw [if_pos h3]; apply intArm_no_length_mismatch
        · rw [if_neg h3]
          by_cases h4 : iitem = 4
          · rw [if_pos h4]; apply intArm_no_length_mismatch
          · rw [if_neg h4]
            by_cases h5 : iitem = 5
            · rw [if_pos h5]
              cases t.int? with
              | none => simp
              | some v => cases hv : IesPhotometryType.fromNat v <;> simp [hv]
            · rw [if_neg h5]
              by_cases h6 : iitem = 6
              · rw [if_pos h6]; apply intArm_no_length_mismatch
              · rw [if_neg h6]
                by_cases h7 : iitem = 7
                · rw [if_pos h7]; apply floatArm_no_length_mismatch
                · rw [if_neg h7]
                  by_cases h8 : iitem = 8
                  · rw [if_pos h8]; apply floatArm_no_length_mismatch
                  · rw [if_neg h8]
                    by_cases h9 : iitem = 9
                    · rw [if_pos h9]; apply floatArm_no_length_mismatch
                    · rw [if_neg h9]
                      by_cases h10 : iitem = 10
                      · rw [if_pos h10]; apply floatArm_no_length_mismatch
                      · rw [if_neg h10]
                        by_cases h11 : iitem = 11
                        · rw [if_pos h11]; simp
                        · rw [if_neg h11]
                          by_cases h12 : iitem = 12
                          · rw [if_pos h12]; apply floatArm_no_length_mismatch
                          · rw [if_neg h12]
                            by_cases h13 : 12 < iitem ∧ iitem ≤ 12 + st.nVerticalAngles
                            · rw [if_pos h13]; apply floatArm_no_length_mismatch
                            · rw [if_neg h13]
                              by_cases h14 : 12 + st.nVerticalAngles < iitem ∧ iitem ≤ 12 + st.nVerticalAngles + st.nHorizontalAngles
                              · rw [if_pos h14]; apply floatArm_no_length_mismatch
                              · rw [if_neg h14]
                                by_cases h15 : 12 + st.nVerticalAngles + st.nHorizontalAngles ≤ iitem
                                · rw [if_pos h15]; apply floatArm_no_length_mismatch
                                · rw [if_neg h15]
                                  simp

lemma headResult_no_length_mismatch (res : IesFile × List Ies.Error)
    (hres : ∀ er ∈ res.2, ∀ l e f', er ≠ .ArrayIncorrectLength l e f') (l e f' : ℕ) :
    (match res.2.head? with
      | some e => Except.error e
      | none => Except.ok res.1) ≠ Except.error (Ies.Error.ArrayIncorrectLength l e f') := by
  cases h : res.2.head? with
  | none => simp
  | some er =>
      have hmem : er ∈ res.2 := List.mem_of_mem_head? (by rw [h]; rfl)
      intro hcontra
      exact hres er hmem l e f' (by
        have := Except.error.inj hcontra
        exact this)

lemma parsePropertiesFold_no_length_mismatch (totalLen : ℕ)
    (items : List (ℕ × (ℕ × NumTok))) :
    ∀ (init : IesFile × List Ies.Error),
      (∀ er ∈ init.2, ∀ l e f', er ≠ .ArrayIncorrectLength l e f') →
      ∀ er ∈ (items.foldl (parsePropertiesFold totalLen) init).2,
        ∀ l e f', er ≠ .ArrayIncorrectLength l e f' := by
  induction items with
  | nil => intro init hinit; exact hinit
  | cons it rest ih =>
      intro init hinit
      rw [List.foldl_cons]
      apply ih
      intro er her l e f'
      unfold parsePropertiesFold at her
      rcases List.mem_append.mp her with her | her
      · exact hinit er her l e f'
      · have heq := Option.mem_toList.mp her
        intro hcontra
        exact parsePropertiesStep_no_length_mismatch totalLen init.1 it.1 it.2.1 it.2.2
          l e f' (by rw [← hcontra]; exact heq)

/-- C7 amended: `parse_properties` performs no count validation at all — for
any structured input it never returns `ArrayIncorrectLength` (that error is
produced only by the TILT sub-table parser) — and on
`iesShortHorizontalLines` (declared horizontal count 2, horizontal-angle
line carrying one token) `IesFile::parse` returns `Ok`, the missing
horizontal value being taken from the following candela data. -/
theorem parse_properties_no_length_validation :
    (∀ (lines : List IesLine) (st : IesFile) (l e f' : ℕ),
      parsePropertiesIes lines st ≠ .error (.ArrayIncorrectLength l e f')) ∧
    IesFile.parse iesShortHorizontalLines = some (.ok iesShortHorizontalParsed) ∧
    iesShortHorizontalParsed.horizontalAngles = [0, 5] := by
  refine ⟨?_, rfl, rfl⟩
  intro lines st l e f'
  unfold parsePropertiesIes
  cases hfind : lines.findIdx? IesLine.isTilt with
  | none => simp
  | some tiltEnd =>
      exact headResult_no_length_mismatch _
        (parsePropertiesFold_no_length_mismatch _ _ _ (by simp)) l e f'

lemma listChunks_one_eq_map {α : Type _} (l : List α) :
    listChunks 1 l = l.map (fun v => [v]) := by
  induction l with
  | nil => simp [listChunks]
  | cons a rest ih => simp [listChunks, ih]

lemma getPlanesTypeC_twoPlane_planes (x a b : ℝ) :
    (iesTwoPlaneTypeC x a b).getPlanesTypeC =
      (if |degreesToRadians x - π / 2| ≤ f64Epsilon then
        some (mirrorFirstHemisphere (mirrorFirstQuadrant (twoPlaneList x a b)))
      else if |degreesToRadians x - π| ≤ f64Epsilon then
        some (mirrorFirstHemisphere (twoPlaneList x a b))
      else some (twoPlaneList x a b)) := by
  unfold IesFile.getPlanesTypeC iesTwoPlaneTypeC twoPlaneList twoPlaneAt
  dsimp only
  rw [listChunks_one_eq_map]
  dsimp only [List.map_cons, List.map_nil, List.enum]
  simp only [List.enumFrom, List.getD_eq_getElem?_getD]
  norm_num
  by_cases h1 : |degreesToRadians x - π / 2| ≤ f64Epsilon
  · have hlast : (π / 2 - degreesToRadians 0) + π / 2 = π := by
      simp [degreesToRadians]
    simp only [h1, if_true, mirrorFirstQuadrant, List.reverse_cons, List.reverse_nil,
      List.nil_append, List.cons_append, List.drop_succ_cons, List.drop_nil,
      List.drop_zero, List.map_cons, List.map_nil, List.getLast?_cons_cons,
      List.getLast?_singleton, hlast]
    rw [if_pos (by rw [sub_self, abs_zero]; norm_num [f64Epsilon])]
  · simp only [h1, if_false, List.getLast?_cons_cons, List.getLast?_singleton]
    split_ifs <;> rfl

/-- Witness for the amended C7 theorem at the concrete malformed input. -/
theorem parse_properties_no_length_validation_witness :
    parsePropertiesIes iesShortHorizontalLines IesFile.new
      ≠ .error (.ArrayIncorrectLength 6 2 1) :=
  parse_properties_no_length_validation.1 iesShortHorizontalLines IesFile.new 6 2 1

/-- C8 amended: the Type-C expansion triggers are tolerance comparisons on
the radian-converted last stored horizontal angle, not exact equality on the
parsed degree values — the first quadrant is mirrored iff that radian angle
lies within `f64::EPSILON` (2⁻⁵²) of `π/2` (after which the new last angle
is exactly `π`, so the hemisphere mirror fires as well), and a file whose
radian angle lies outside both tolerances is returned unexpanded. -/
theorem type_c_mirror_trigger_tolerance :
    (∀ x a b : ℝ,
      f64Epsilon < |degreesToRadians x - π / 2| →
      f64Epsilon < |degreesToRadians x - π| →
      (iesTwoPlaneTypeC x a b).getPlanesTypeC = some (twoPlaneList x a b)) ∧
    (∀ x a b : ℝ,
      |degreesToRadians x - π / 2| ≤ f64Epsilon →
      ((iesTwoPlaneTypeC x a b).getPlanesTypeC).map List.length = some 4) := by
  constructor
  · intro x a b h1 h2
    rw [getPlanesTypeC_twoPlane_planes, if_neg (not_le.mpr h1), if_neg (not_le.mpr h2)]
  · intro x a b h1
    rw [getPlanesTypeC_twoPlane_planes, if_pos h1]
    simp [mirrorFirstHemisphere, mirrorFirstQuadrant, twoPlaneList]

/-- Witness for C8 at a file whose last horizontal angle is `0` degrees
(expansion skipped) and one whose last horizontal angle is exactly `90`
degrees (expansion fires, four planes). -/
theorem type_c_mirror_trigger_tolerance_witness :
    (iesTwoPlaneTypeC 0 1 2).getPlanesTypeC = some (twoPlaneList 0 1 2) ∧
    ((iesTwoPlaneTypeC 90 1 2).getPlanesTypeC).map List.length = some 4 := by
  have hzero : degreesToRadians 0 = 0 := by simp [degreesToRadians]
  constructor
  · apply type_c_mirror_trigger_tolerance.1
    · rw [hzero, zero_sub, abs_neg, abs_of_pos (by positivity)]
      unfold f64Epsilon
      nlinarith [Real.pi_gt_three]
    · rw [hzero, zero_sub, abs_neg, abs_of_pos Real.pi_pos]
      unfold f64Epsilon
      nlinarith [Real.pi_gt_three]
  · apply type_c_mirror_trigger_tolerance.2
    rw [show degreesToRadians 90 = π / 2 from by unfold degreesToRadians; ring]
    simp [f64Epsilon]

/-- C8 counterexample: the stored horizontal angle `nearNinetyDegrees`
differs from both 90 and 180 degrees, yet `get_planes_type_c` still expands
the two stored planes to four — refuting the claim that the expansion is
taken exactly at 90/180 and silently skipped everywhere else. -/
theorem type_c_mirror_trigger_counterexample :
    nearNinetyDegrees ≠ 90 ∧ nearNinetyDegrees ≠ 180 ∧
    ((iesTwoPlaneTypeC nearNinetyDegrees 0 0).getPlanesTypeC).map List.length
      = some 4 := by
  have hpi := Real.pi_gt_three
  have hpos : (0 : ℝ) < 180 / (π * 2 ^ 53) := by positivity
  have hlt1 : (180 : ℝ) / (π * 2 ^ 53) < 1 := by
    rw [div_lt_one (by positivity)]
    nlinarith [show (180 : ℝ) < 3 * 2 ^ 53 from by norm_num]
  refine ⟨?_, ?_, ?_⟩
  · unfold nearNinetyDegrees
    intro h
    have h0 : (180 : ℝ) / (π * 2 ^ 53) = 0 := by linarith
    linarith
  · unfold nearNinetyDegrees
    intro h
    have h90 : (180 : ℝ) / (π * 2 ^ 53) = 90 := by linarith
    linarith
  · have htol : |degreesToRadians nearNinetyDegrees - π / 2| ≤ f64Epsilon := by
      unfold nearNinetyDegrees degreesToRadians f64Epsilon
      rw [show (90 + 180 / (π * 2 ^ 53)) * (π / 180) - π / 2 = 1 / 2 ^ 53 from by
        field_simp
        ring]
      rw [abs_of_pos (by positivity)]
      norm_num
    rw [getPlanesTypeC_twoPlane_planes, if_pos htol]
    simp [mirrorFirstHemisphere, mirrorFirstQuadrant, twoPlaneList]

/-! ## Claims C3 and C4 -/

lemma getPlanes_C0C180 (f : EulumdatFile) (hsym : f.symmetry = .C0C180Plane) :
    f.getPlanes = eulumdatBasePlanes f
      ++ (((eulumdatBasePlanes f).reverse.drop 1).take
            ((eulumdatBasePlanes f).length - 2)).map
          (fun pl => { pl with angle := (π - pl.angle) + π }) := by
  unfold EulumdatFile.getPlanes
  dsimp only
  have h1 : ¬(f.symmetry = EulumdatSymmetry.C0C180C90C270Plane) := by rw [hsym]; decide
  have h3 : ¬(f.symmetry = EulumdatSymmetry.C90C270Plane) := by rw [hsym]; decide
  rw [if_neg h1, if_pos (Or.inl hsym), if_neg h3]

lemma getPlanes_C90C270 (f : EulumdatFile) (hsym : f.symmetry = .C90C270Plane) :
    f.getPlanes =
      ((((eulumdatBasePlanes f).drop 1).take ((eulumdatBasePlanes f).length / 2)).reverse).map
          (fun pl => { pl with angle := π - pl.angle })
        ++ eulumdatBasePlanes f
        ++ ((((eulumdatBasePlanes f).drop ((eulumdatBasePlanes f).length / 2 + 1)).take
              ((eulumdatBasePlanes f).length / 2 - 1)).reverse).map
          (fun pl => { pl with angle := pl.angle + 2 * (3 * (π / 2) - pl.angle) }) := by
  unfold EulumdatFile.getPlanes
  dsimp only
  have h1 : ¬(f.symmetry = EulumdatSymmetry.C0C180C90C270Plane) := by rw [hsym]; decide
  have h2 : ¬(f.symmetry = EulumdatSymmetry.C0C180Plane
      ∨ f.symmetry = EulumdatSymmetry.C0C180C90C270Plane) := by rw [hsym]; decide
  rw [if_neg h1, if_neg h2, if_pos hsym, List.append_assoc]

lemma ldtC0C180_base : eulumdatBasePlanes ldtC0C180
    = (List.range 19).map (fun i : ℕ => twoPlaneAt (10 * (i : ℝ)) (10 * (i : ℝ))) := by
  unfold eulumdatBasePlanes ldtC0C180 twoPlaneAt
  dsimp only
  rw [listChunks_one_eq_map, List.map_map, List.zip_map', List.map_map]
  apply List.map_congr_left
  intro i _
  simp

lemma ldtC90C270_base : eulumdatBasePlanes ldtC90C270
    = (List.range 19).map (fun i : ℕ => twoPlaneAt (90 + 10 * (i : ℝ)) (90 + 10 * (i : ℝ))) := by
  unfold eulumdatBasePlanes ldtC90C270 twoPlaneAt
  dsimp only
  rw [listChunks_one_eq_map, List.map_map, List.zip_map', List.map_map]
  apply List.map_congr_left
  intro i _
  simp

/-- C3: the `C0-C180` EULUMDAT expansion of planes stored at `0°..180°`
(10° spacing, each plane's single intensity equal to its own C-angle) yields
36 planes at `0°,10°,…,350°` in which the mirrored plane at angle `a > 180°`
carries the stored intensity of the plane at `360° − a`, the boundary planes
at 0° and 180° appearing once. -/
theorem eulumdat_c0c180_mirror :
    ldtC0C180.getPlanes.length = 36 ∧
    ∀ i < 36,
      (ldtC0C180.getPlanes.getD i default).angle = degreesToRadians (10 * (i : ℝ)) ∧
      (ldtC0C180.getPlanes.getD i default).intensities
        = [if i ≤ 18 then 10 * (i : ℝ) else 360 - 10 * (i : ℝ)] := by
  have hplanes := getPlanes_C0C180 ldtC0C180 rfl
  rw [ldtC0C180_base] at hplanes
  have hlenA : ((List.range 19).map
      (fun i : ℕ => twoPlaneAt (10 * (i : ℝ)) (10 * (i : ℝ)))).length = 19 := by
    simp
  constructor
  · rw [hplanes]
    simp
  · intro i hi
    rw [hplanes, List.getD_eq_getElem?_getD]
    by_cases hsmall : i < 19
    · rw [List.getElem?_append_left (by rw [hlenA]; omega), List.getElem?_map,
        List.getElem?_range hsmall]
      unfold twoPlaneAt
      rw [if_pos (by omega)]
      exact ⟨rfl, rfl⟩
    · rw [List.getElem?_append_right (by rw [hlenA]; omega), List.getElem?_map,
        List.getElem?_take, if_pos (by rw [hlenA]; omega), List.getElem?_drop,
        List.getElem?_reverse (by rw [hlenA]; omega)]
      have hidx : ((List.range 19).map
            (fun i : ℕ => twoPlaneAt (10 * (i : ℝ)) (10 * (i : ℝ)))).length - 1
          - (1 + (i - ((List.range 19).map
            (fun i : ℕ => twoPlaneAt (10 * (i : ℝ)) (10 * (i : ℝ)))).length)) = 36 - i := by
        rw [hlenA]; omega
      rw [hidx, List.getElem?_map, List.getElem?_range (by omega)]
      unfold twoPlaneAt
      have hcast : ((36 - i : ℕ) : ℝ) = 36 - (i : ℝ) := by
        push_cast [Nat.cast_sub (by omega : i ≤ 36)]
        ring
      rw [if_neg (by omega)]
      constructor
      · show π - degreesToRadians (10 * ((36 - i : ℕ) : ℝ)) + π = _
        rw [hcast]
        unfold degreesToRadians
        ring
      · show [10 * ((36 - i : ℕ) : ℝ)] = _
        rw [hcast]
        congr 1
        ring

/-- Witness for C3 at the boundary plane 50° and the mirrored plane 200°
(which carries the stored 160° intensity). -/
theorem eulumdat_c0c180_mirror_witness :
    ldtC0C180.getPlanes.length = 36 ∧
    (ldtC0C180.getPlanes.getD 5 default).angle = degreesToRadians 50 ∧
    (ldtC0C180.getPlanes.getD 5 default).intensities = [50] ∧
    (ldtC0C180.getPlanes.getD 20 default).angle = degreesToRadians 200 ∧
    (ldtC0C180.getPlanes.getD 20 default).intensities = [160] := by
  obtain ⟨hlen, hall⟩ := eulumdat_c0c180_mirror
  obtain ⟨h5a, h5i⟩ := hall 5 (by norm_num)
  obtain ⟨h20a, h20i⟩ := hall 20 (by norm_num)
  refine ⟨hlen, ?_, ?_, ?_, ?_⟩
  · rw [h5a]; norm_num
  · rw [h5i]; norm_num
  · rw [h20a]; norm_num
  · rw [h20i]; norm_num

/-- C4: the `C90-C270` EULUMDAT expansion of planes stored at `90°..270°`
(10° spacing, single intensity equal to the own C-angle) yields 36 planes
covering `0°..350°`: planes below 90° are the stored wedge reflected about
90° (the plane at `d` carries `180 − d`, in particular the plane at 0°
carries the stored 180° value), the stored wedge is kept unchanged for
`90°..270°`, and planes above 270° are the reflection about 270° (value
`540 − d`). -/
theorem eulumdat_c90c270_mirror :
    ldtC90C270.getPlanes.length = 36 ∧
    ∀ i < 36,
      (ldtC90C270.getPlanes.getD i default).angle = degreesToRadians (10 * (i : ℝ)) ∧
      (ldtC90C270.getPlanes.getD i default).intensities
        = [if i < 9 then 180 - 10 * (i : ℝ)
            else if i < 28 then 10 * (i : ℝ)
            else 540 - 10 * (i : ℝ)] := by
  have hplanes := getPlanes_C90C270 ldtC90C270 rfl
  rw [ldtC90C270_base] at hplanes
  set A := (List.range 19).map
    (fun i : ℕ => twoPlaneAt (90 + 10 * (i : ℝ)) (90 + 10 * (i : ℝ))) with hAdef
  have hlenA : A.length = 19 := by rw [hAdef]; simp
  constructor
  · rw [hplanes]
    simp [hlenA]
  · intro i hi
    rw [hplanes, List.getD_eq_getElem?_getD]
    by_cases h9 : i < 9
    · rw [List.getElem?_append_left (by simp [hlenA]; omega),
        List.getElem?_append_left (by simp [hlenA]; omega),
        List.getElem?_map,
        List.getElem?_reverse (by simp [hlenA]; omega)]
      have hidx1 : ((A.drop 1).take (A.length / 2)).length - 1 - i = 8 - i := by
        simp [hlenA]
      rw [hidx1, List.getElem?_take, if_pos (by rw [hlenA]; omega), List.getElem?_drop]
      have hidx2 : 1 + (8 - i) = 9 - i := by omega
      rw [hidx2, hAdef, List.getElem?_map, List.getElem?_range (by omega)]
      have hcast : ((9 - i : ℕ) : ℝ) = 9 - (i : ℝ) := by
        push_cast [Nat.cast_sub (by omega : i ≤ 9)]
        ring
      unfold twoPlaneAt
      rw [if_pos (by omega)]
      constructor
      · show π - degreesToRadians (90 + 10 * ((9 - i : ℕ) : ℝ)) = _
        rw [hcast]
        unfold degreesToRadians
        ring
      · show [90 + 10 * ((9 - i : ℕ) : ℝ)] = _
        rw [hcast]
        congr 1
        ring
    · by_cases h28 : i < 28
      · rw [List.getElem?_append_left (by simp [hlenA]; omega),
          List.getElem?_append_right (by simp [hlenA]; omega)]
        have hidx1 : i - (((A.drop 1).take (A.length / 2)).reverse.map
            (fun pl : Plane => { pl with angle := π - pl.angle })).length = i - 9 := by
          simp [hlenA]
        rw [hidx1, hAdef, List.getElem?_map, List.getElem?_range (by omega)]
        have hcast : ((i - 9 : ℕ) : ℝ) = (i : ℝ) - 9 := by
          push_cast [Nat.cast_sub (by omega : 9 ≤ i)]
          ring
        unfold twoPlaneAt
        rw [if_neg (by omega), if_pos (by omega)]
        constructor
        · show degreesToRadians (90 + 10 * ((i - 9 : ℕ) : ℝ)) = _
          rw [hcast]
          congr 1
          ring
        · show [90 + 10 * ((i - 9 : ℕ) : ℝ)] = _
          rw [hcast]
          congr 1
          ring
      · rw [List.getElem?_append_right (by simp [hlenA]; omega)]
        have hidx0 : i - ((((A.drop 1).take (A.length / 2)).reverse.map
            (fun pl : Plane => { pl with angle := π - pl.angle })) ++ A).length = i - 28 := by
          simp [hlenA]
        rw [hidx0, List.getElem?_map,
          List.getElem?_reverse (by simp [hlenA]; omega)]
        have hidx1 : ((A.drop (A.length / 2 + 1)).take (A.length / 2 - 1)).length - 1
            - (i - 28) = 35 - i := by
          simp [hlenA]
          omega
        rw [hidx1, List.getElem?_take, if_pos (by rw [hlenA]; omega), List.getElem?_drop]
        have hidx2 : A.length / 2 + 1 + (35 - i) = 45 - i := by
          rw [hlenA]; omega
        rw [hidx2, hAdef, List.getElem?_map, List.getElem?_range (by omega)]
        have hcast : ((45 - i : ℕ) : ℝ) = 45 - (i : ℝ) := by
          push_cast [Nat.cast_sub (by omega : i ≤ 45)]
          ring
        unfold twoPlaneAt
        rw [if_neg (by omega), if_neg (by omega)]
        constructor
        · show degreesToRadians (90 + 10 * ((45 - i : ℕ) : ℝ))
              + 2 * (3 * (π / 2) - degreesToRadians (90 + 10 * ((45 - i : ℕ) : ℝ))) = _
          rw [hcast]
          unfold degreesToRadians
          ring
        · show [90 + 10 * ((45 - i : ℕ) : ℝ)] = _
          rw [hcast]
          congr 1
          ring

/-- Witness for C4 at the plane 0° (stored 180° value), a middle plane 100°,
and the mirrored plane 290° (stored 250° value). -/
theorem eulumdat_c90c270_mirror_witness :
    ldtC90C270.getPlanes.length = 36 ∧
    (ldtC90C270.getPlanes.getD 0 default).angle = degreesToRadians 0 ∧
    (ldtC90C270.getPlanes.getD 0 default).intensities = [180] ∧
    (ldtC90C270.getPlanes.getD 10 default).intensities = [100] ∧
    (ldtC90C270.getPlanes.getD 29 default).intensities = [250] := by
  obtain ⟨hlen, hall⟩ := eulumdat_c90c270_mirror
  obtain ⟨h0a, h0i⟩ := hall 0 (by norm_num)
  obtain ⟨h10a, h10i⟩ := hall 10 (by norm_num)
  obtain ⟨h29a, h29i⟩ := hall 29 (by norm_num)
  refine ⟨hlen, ?_, ?_, ?_, ?_⟩
  · rw [h0a]; norm_num
  · rw [h0i]; norm_num
  · rw [h10i]; norm_num
  · rw [h29i]; norm_num

end Lidrs
